import Mathlib

/-!
Verification of the `posutils` timer module (`src/putimer.cpp`).

The development shallowly embeds the timer engine:
* `Timespec` and the `timespec_*` arithmetic helpers;
* the timer slot record `PutimerTmr` and its state/type enums;
* the pending queue, modelled as a list of slot indices (the source links the
  pool slots intrusively through `pNext`; a slot is identified by its index,
  which stands in for the node's address), together with the queue operations
  `putimer_add`, `putimer_remove` and the expired-prefix extraction performed
  by `putimer_thread`;
* the module-global state `PutimerSt` (bitmap, slot pool, allocation count,
  rolling tag, queue) and the public handle API
  (`putimer_create_local`, `putimer_start`, `putimer_stop`,
  `putimer_set_period`, `putimer_set_wake_time`, `putimer_is_active`,
  `putimer_delete`).

Clock reads (`clock_gettime`) are modelled by passing the current time as an
explicit argument.  Callbacks are modelled by their address (`pFct : Nat`,
`0` standing for a null pointer).
-/

namespace Putimer

/-- Model of `struct timespec`: `tv_sec : time_t` and `tv_nsec : long`,
both signed integers in C. -/
structure Timespec where
  tv_sec : Int
  tv_nsec : Int
deriving DecidableEq

/-- Total nanosecond value of a timespec (specification helper, not from the
source; used to state arithmetic claims). -/
def toNs (t : Timespec) : Int := t.tv_sec * 1000000000 + t.tv_nsec

/-- A timespec is normalized when its nanosecond field lies in `[0, 10^9)`. -/
def tsNormalized (t : Timespec) : Prop :=
  0 ≤ t.tv_nsec ∧ t.tv_nsec < 1000000000

instance (t : Timespec) : Decidable (tsNormalized t) := by
  unfold tsNormalized; infer_instance

/-- Translation of `timespec_is_a_after_b`: lexicographic "A is strictly
after B" test. -/
def timespec_is_a_after_b (pA pB : Timespec) : Bool :=
  let iIsAfter : Bool := decide (pA.tv_sec > pB.tv_sec)
  if (!iIsAfter) && decide (pA.tv_sec = pB.tv_sec) then
    decide (pA.tv_nsec > pB.tv_nsec)
  else
    iIsAfter

/-- Translation of `timespec_a_sub_b` (subtract B from A with borrow on the
nanosecond field). -/
def timespec_a_sub_b (pA pB : Timespec) : Timespec :=
  if pA.tv_nsec ≥ pB.tv_nsec then
    { tv_sec := pA.tv_sec - pB.tv_sec, tv_nsec := pA.tv_nsec - pB.tv_nsec }
  else
    { tv_sec := pA.tv_sec - pB.tv_sec - 1
      tv_nsec := (1000000000 - pB.tv_nsec) + pA.tv_nsec }

/-- Translation of `timespec_add_ms`: add `ulMs` milliseconds, carrying the
nanosecond overflow into the seconds field.  The source tests
`tv_nsec > 1000000000` (strict), which the theorems below examine. -/
def timespec_add_ms (pTs : Timespec) (ulMs : Nat) : Timespec :=
  let sec1 : Int := pTs.tv_sec + (ulMs / 1000 : Nat)
  let lNs : Int := ((ulMs - ulMs / 1000 * 1000 : Nat) * 1000000 : Nat)
  let nsec1 : Int := pTs.tv_nsec + lNs
  if nsec1 > 1000000000 then
    { tv_sec := sec1 + 1, tv_nsec := nsec1 - 1000000000 }
  else
    { tv_sec := sec1, tv_nsec := nsec1 }

/-- Translation of `timespec_realtime_to_monotonic`; the two `clock_gettime`
reads are passed in as `stMT` (monotonic now) and `stRT` (realtime now). -/
def timespec_realtime_to_monotonic (pTs stMT stRT : Timespec) : Timespec :=
  if timespec_is_a_after_b stMT stRT then
    let stDiff := timespec_a_sub_b stMT stRT
    let sec1 := pTs.tv_sec + stDiff.tv_sec
    let nsec1 := pTs.tv_nsec + stDiff.tv_nsec
    if nsec1 > 1000000000 then
      { tv_sec := sec1 + 1, tv_nsec := nsec1 - 1000000000 }
    else
      { tv_sec := sec1, tv_nsec := nsec1 }
  else
    let stDiff := timespec_a_sub_b stRT stMT
    let nsec1 := pTs.tv_nsec - stDiff.tv_nsec
    if nsec1 < 0 then
      { tv_sec := pTs.tv_sec - 1 - stDiff.tv_sec, tv_nsec := 1000000000 + nsec1 }
    else
      { tv_sec := pTs.tv_sec - stDiff.tv_sec, tv_nsec := nsec1 }

/-- Translation of `putimer_state_t`. -/
inductive PutimerState where
  | PUTIMER_STATE_IDLE
  | PUTIMER_STATE_WAITING
  | PUTIMER_STATE_FIRED
deriving DecidableEq

export PutimerState (PUTIMER_STATE_IDLE PUTIMER_STATE_WAITING PUTIMER_STATE_FIRED)

/-- Translation of `putimer_type_t`. -/
inductive PutimerType where
  | PUTIMER_TYPE_SINGLESHOT
  | PUTIMER_TYPE_PERIODIC
  | PUTIMER_TYPE_UNDEF
deriving DecidableEq

export PutimerType (PUTIMER_TYPE_SINGLESHOT PUTIMER_TYPE_PERIODIC PUTIMER_TYPE_UNDEF)

/-- Translation of `putimer_tmr_t`.  The `pNext` intrusive link is replaced by
the queue list of slot indices; `pFct`/`pCookie` are modelled by numeric
addresses (`0` = null). -/
structure PutimerTmr where
  usID : Nat
  usTag : Nat
  pFct : Nat
  uiPeriodMs : Nat
  tsEnd : Timespec
  enType : PutimerType
  enState : PutimerState
  iUseAbsTime : Bool
  pCookie : Nat
  bLockable : Bool
deriving DecidableEq

/-- `PUTIMER_MAX_RESOURCES` (= `32 * 4`). -/
def PUTIMER_MAX_RESOURCES : Nat := 128

/-- `PUTIMER_MIN_TIMEOUT` from `putimer.h` (milliseconds). -/
def PUTIMER_MIN_TIMEOUT : Nat := 10

/-- `PUTIMER_HND_CREATE(idx,tag) = (idx << 16) + tag`. -/
def PUTIMER_HND_CREATE (idx tag : Nat) : Nat := idx * 65536 + tag

/-- `PUTIMER_HND_GET_IDX(hnd) = (uint16_t)(hnd >> 16)`. -/
def PUTIMER_HND_GET_IDX (hnd : Nat) : Nat := hnd / 65536 % 65536

/-- `PUTIMER_HND_GET_TAG(hnd) = (uint16_t)(hnd & 0xffff)`. -/
def PUTIMER_HND_GET_TAG (hnd : Nat) : Nat := hnd % 65536

/-- Pointwise update of the slot pool at one index (the source mutates
`pTimerList[i]` in place). -/
def updSlot (slots : Nat → PutimerTmr) (id : Nat) (t : PutimerTmr) :
    Nat → PutimerTmr :=
  fun k => if k = id then t else slots k

/-- Translation of `putimer_alloc_id`: scan the bitmap for the first clear
bit (the word/bit double loop of the source visits ids in increasing order).
Returns the id; the corresponding bit is set by the caller of this model
(`putimer_create_local`), mirroring `pTimerId[i] |= uiMask`.  The source
returns `0xffff` after an `ASSERT(0)` when no bit is clear; that is modelled
as `none`. -/
def putimer_alloc_id (pTimerId : Nat → Bool) : Option Nat :=
  (List.range PUTIMER_MAX_RESOURCES).find? (fun i => !(pTimerId i))

/-- Translation of `putimer_free_id`: clear the bit for `usId`. -/
def putimer_free_id (pTimerId : Nat → Bool) (usId : Nat) : Nat → Bool :=
  fun k => if k = usId then false else pTimerId k

/-- Result record for `putimer_remove` (return value plus the two out
parameters and the mutated pool and queue). -/
structure RemoveRes where
  iHeadUpdated : Bool
  iWasActive : Bool
  uiRemainingMs : Nat
  slots : Nat → PutimerTmr
  queue : List Nat

/-- Search loop of `putimer_remove`: walk the queue with a `pPrev` cursor and
unlink the first node equal to the target.  Returns `none` when the target is
not found, otherwise `(pPrev == nullptr, queue with the node removed)`. -/
def putimer_remove_find : List Nat → Nat → Option (Bool × List Nat)
  | [], _ => none
  | j :: rest, id =>
    if j = id then some (true, rest)
    else
      match putimer_remove_find rest id with
      | none => none
      | some (_, rest') => some (false, j :: rest')

/-- Remaining-time computation of `putimer_remove`
(`tsDiff.tv_nsec / 1000000 + tsDiff.tv_sec * 1000`, only when the end time is
still after `now`).  C integer division truncates toward zero (`Int.tdiv`);
the cast to `size_t` is modelled by `Int.toNat`. -/
def putimer_remaining_ms (tsEnd tsNow : Timespec) : Nat :=
  if timespec_is_a_after_b tsEnd tsNow then
    let tsDiff := timespec_a_sub_b tsEnd tsNow
    (Int.tdiv tsDiff.tv_nsec 1000000 + tsDiff.tv_sec * 1000).toNat
  else 0

/-- Translation of `putimer_remove`: force the slot to idle, then, if it was
waiting, unlink it from the queue and report whether it was the head and how
many milliseconds were left. -/
def putimer_remove (slots : Nat → PutimerTmr) (queue : List Nat) (id : Nat)
    (tsNow : Timespec) : RemoveRes :=
  let pTmr := slots id
  let bInQ : Bool := pTmr.enState = PUTIMER_STATE_WAITING
  let slots1 := updSlot slots id { pTmr with enState := PUTIMER_STATE_IDLE }
  if bInQ then
    match putimer_remove_find queue id with
    | some (isHead, queue') =>
      { iHeadUpdated := isHead, iWasActive := true
        uiRemainingMs := putimer_remaining_ms pTmr.tsEnd tsNow
        slots := slots1, queue := queue' }
    | none =>
      { iHeadUpdated := false, iWasActive := false, uiRemainingMs := 0
        slots := slots1, queue := queue }
  else
    { iHeadUpdated := false, iWasActive := false, uiRemainingMs := 0
      slots := slots1, queue := queue }

/-- Insertion loop of `putimer_add`: walk past every entry whose expiration is
not strictly after the new entry's expiration, then link the new entry in.
The boolean is `iHeadUpdated` (`pPrev == nullptr` at the insertion point). -/
def putimer_add_loop (slots : Nat → PutimerTmr) (tsEnd : Timespec) (id : Nat) :
    List Nat → List Nat × Bool
  | [] => ([id], true)
  | j :: rest =>
    if timespec_is_a_after_b (slots j).tsEnd tsEnd then
      (id :: j :: rest, true)
    else
      let r := putimer_add_loop slots tsEnd id rest
      (j :: r.1, false)

/-- Result record for `putimer_add`. -/
structure AddRes where
  iHeadUpdated : Bool
  slots : Nat → PutimerTmr
  queue : List Nat

/-- Translation of `putimer_add`: only acts on an idle timer; computes the end
time (`now + period`, unless an absolute wake time is armed, which is then
consumed), inserts in expiration order, and marks the timer waiting. -/
def putimer_add (slots : Nat → PutimerTmr) (queue : List Nat) (id : Nat)
    (tsNow : Timespec) : AddRes :=
  let pTmr := slots id
  if pTmr.enState = PUTIMER_STATE_IDLE then
    let pTmr1 :=
      if pTmr.iUseAbsTime then { pTmr with iUseAbsTime := false }
      else { pTmr with tsEnd := timespec_add_ms tsNow pTmr.uiPeriodMs }
    let slots1 := updSlot slots id pTmr1
    let r := putimer_add_loop slots1 pTmr1.tsEnd id queue
    { iHeadUpdated := r.2
      slots := updSlot slots1 id { pTmr1 with enState := PUTIMER_STATE_WAITING }
      queue := r.1 }
  else
    { iHeadUpdated := false, slots := slots, queue := queue }

/-- Expired-prefix extraction of `putimer_thread` (the `for` loop over
`pQueue`): collect the maximal prefix of entries whose expiration is not
after `tsNow`; the first component is the call list, the second the new
queue. -/
def putimer_pop_loop (slots : Nat → PutimerTmr) (tsNow : Timespec) :
    List Nat → List Nat × List Nat
  | [] => ([], [])
  | j :: rest =>
    if timespec_is_a_after_b (slots j).tsEnd tsNow then
      ([], j :: rest)
    else
      let r := putimer_pop_loop slots tsNow rest
      (j :: r.1, r.2)

/-- Result record for one extraction pass of the waiter thread. -/
structure PopRes where
  pCallList : List Nat
  queue : List Nat
  slots : Nat → PutimerTmr

/-- One extraction pass of `putimer_thread`: detach the expired prefix and
mark every extracted entry `PUTIMER_STATE_FIRED`
(`pCurr->enState = PUTIMER_STATE_FIRED` inside the walk). -/
def putimer_pop_expired (slots : Nat → PutimerTmr) (queue : List Nat)
    (tsNow : Timespec) : PopRes :=
  let r := putimer_pop_loop slots tsNow queue
  { pCallList := r.1
    queue := r.2
    slots := fun k =>
      if k ∈ r.1 then { slots k with enState := PUTIMER_STATE_FIRED }
      else slots k }

/-- Dispatch guard of `putimer_thread` (lines 495-496): a callback is invoked
only when the entry's state is still `PUTIMER_STATE_FIRED` and its tag is
non-zero. -/
def putimer_fire_check (pTmr : PutimerTmr) : Bool :=
  decide (pTmr.enState = PUTIMER_STATE_FIRED) && decide (pTmr.usTag > 0)

/-- The sub-list of a call list whose callbacks the dispatch loop actually
invokes (those passing `putimer_fire_check`). -/
def putimer_dispatch_calls (slots : Nat → PutimerTmr) (pCallList : List Nat) :
    List Nat :=
  pCallList.filter (fun j => putimer_fire_check (slots j))

/-- Module-global state of `putimer.cpp`: the id bitmap (`pTimerId`, modelled
bit-per-index instead of four 32-bit words), the rolling tag, the allocation
count, the slot pool and the pending queue (list of slot indices ordered as
the intrusive `pNext` chain from `pQueue`). -/
structure PutimerSt where
  iIsInit : Bool
  pTimerId : Nat → Bool
  usRollingTag : Nat
  uiAllocatedTimers : Nat
  pTimerList : Nat → PutimerTmr
  pQueue : List Nat

/-- The all-zero slot produced by `memset(pTimerList, 0, ...)` in
`putimer_init` (state 0 = idle, type 0 = single-shot). -/
def zeroTmr : PutimerTmr :=
  { usID := 0, usTag := 0, pFct := 0, uiPeriodMs := 0
    tsEnd := { tv_sec := 0, tv_nsec := 0 }
    enType := PUTIMER_TYPE_SINGLESHOT, enState := PUTIMER_STATE_IDLE
    iUseAbsTime := false, pCookie := 0, bLockable := false }

/-- State established by `putimer_init`: cleared bitmap and pool, zero
allocation count, empty queue. -/
def putimer_init_state : PutimerSt :=
  { iIsInit := true
    pTimerId := fun _ => false
    usRollingTag := 0
    uiAllocatedTimers := 0
    pTimerList := fun _ => zeroTmr
    pQueue := [] }

/-- Concrete slot pool used to exercise the queue operations: slot 1 waits
until 10 s, slot 2 waits until 20 s, every other slot is zeroed. -/
def sampleSlots : Nat → PutimerTmr := fun k =>
  if k = 1 then
    { zeroTmr with
        tsEnd := { tv_sec := 10, tv_nsec := 0 }
        enState := PUTIMER_STATE_WAITING }
  else if k = 2 then
    { zeroTmr with
        tsEnd := { tv_sec := 20, tv_nsec := 0 }
        enState := PUTIMER_STATE_WAITING }
  else zeroTmr

/-- Rolling-tag step of `putimer_create_local`: `usRollingTag++` on a
`uint16_t` (wraps mod 2^16), then a wrap to 0 is mapped to 1. -/
def putimer_next_tag (usRollingTag : Nat) : Nat :=
  let t := (usRollingTag + 1) % 65536
  if t = 0 then 1 else t

/-- Translation of `putimer_create_local`.  Returns the handle (`0` = the
null handle `putimer_hnd_t{}`) and the new state.  The `WARN`/`ASSERT` guards
become the `if` conditions they protect; the unreachable
`putimer_alloc_id` failure (source: `ASSERT(0)`) leaves the state
unchanged. -/
def putimer_create_local (st : PutimerSt) (enType : PutimerType)
    (fctCallback : Nat) (uiPeriodMs : Nat) (pCookie : Nat)
    (bLockable : Bool) : Nat × PutimerSt :=
  let uiPeriodMs1 :=
    if uiPeriodMs < PUTIMER_MIN_TIMEOUT then PUTIMER_MIN_TIMEOUT else uiPeriodMs
  if st.iIsInit ∧ fctCallback ≠ 0 ∧
      (enType = PUTIMER_TYPE_SINGLESHOT ∨ enType = PUTIMER_TYPE_PERIODIC) then
    if st.uiAllocatedTimers < PUTIMER_MAX_RESOURCES then
      match putimer_alloc_id st.pTimerId with
      | some usID =>
        let tag := putimer_next_tag st.usRollingTag
        let pTmr : PutimerTmr :=
          { usID := usID, usTag := tag, enType := enType, pFct := fctCallback
            pCookie := pCookie, uiPeriodMs := uiPeriodMs1
            tsEnd := (st.pTimerList usID).tsEnd
            enState := PUTIMER_STATE_IDLE, iUseAbsTime := false
            bLockable := bLockable }
        ( PUTIMER_HND_CREATE usID tag
        , { st with
            pTimerId := fun k => if k = usID then true else st.pTimerId k
            usRollingTag := tag
            pTimerList := updSlot st.pTimerList usID pTmr
            uiAllocatedTimers := st.uiAllocatedTimers + 1 } )
      | none => (0, st)
    else (0, st)
  else (0, st)

/-- Translation of `putimer_create` (non-lockable wrapper). -/
def putimer_create (st : PutimerSt) (enType : PutimerType) (fctCallback : Nat)
    (uiPeriodMs : Nat) (pCookie : Nat) : Nat × PutimerSt :=
  putimer_create_local st enType fctCallback uiPeriodMs pCookie false

/-- Translation of `putimer_create_lockable`. -/
def putimer_create_lockable (st : PutimerSt) (enType : PutimerType)
    (fctCallback : Nat) (uiPeriodMs : Nat) (pCookie : Nat) : Nat × PutimerSt :=
  putimer_create_local st enType fctCallback uiPeriodMs pCookie true

/-- Translation of `putimer_delete`.  `tsNow` models the `clock_gettime`
read inside `putimer_remove`. -/
def putimer_delete (st : PutimerSt) (hndTimer : Nat) (tsNow : Timespec) :
    Int × PutimerSt :=
  let usIdx := PUTIMER_HND_GET_IDX hndTimer
  if usIdx < PUTIMER_MAX_RESOURCES then
    let usTag := PUTIMER_HND_GET_TAG hndTimer
    if usTag = (st.pTimerList usIdx).usTag then
      if st.uiAllocatedTimers ≠ 0 then
        let r := putimer_remove st.pTimerList st.pQueue usIdx tsNow
        ( 0
        , { st with
            pTimerId := putimer_free_id st.pTimerId ((r.slots usIdx).usID)
            pTimerList := updSlot r.slots usIdx
              { r.slots usIdx with usTag := 0 }
            pQueue := r.queue
            uiAllocatedTimers := st.uiAllocatedTimers - 1 } )
      else (-1, st)
    else (-1, st)
  else (-1, st)

/-- Translation of `putimer_set_period`. -/
def putimer_set_period (st : PutimerSt) (hndTimer : Nat) (uiPeriodMs : Nat)
    (tsNow : Timespec) : Int × PutimerSt :=
  let usIdx := PUTIMER_HND_GET_IDX hndTimer
  if usIdx < PUTIMER_MAX_RESOURCES then
    let uiPeriodMs1 :=
      if uiPeriodMs < PUTIMER_MIN_TIMEOUT then PUTIMER_MIN_TIMEOUT
      else uiPeriodMs
    let usTag := PUTIMER_HND_GET_TAG hndTimer
    if usTag = (st.pTimerList usIdx).usTag then
      let r := putimer_remove st.pTimerList st.pQueue usIdx tsNow
      ( 0
      , { st with
          pTimerList := updSlot r.slots usIdx
            { r.slots usIdx with uiPeriodMs := uiPeriodMs1 }
          pQueue := r.queue } )
    else (-1, st)
  else (-1, st)

/-- Translation of `putimer_set_wake_time`.  `stMT`/`stRT` model the two
clock reads inside `timespec_realtime_to_monotonic`, `tsNow` the one inside
`putimer_remove`. -/
def putimer_set_wake_time (st : PutimerSt) (hndTimer : Nat) (pWake : Timespec)
    (tsNow stMT stRT : Timespec) : Int × PutimerSt :=
  let usIdx := PUTIMER_HND_GET_IDX hndTimer
  if usIdx < PUTIMER_MAX_RESOURCES then
    let usTag := PUTIMER_HND_GET_TAG hndTimer
    if usTag = (st.pTimerList usIdx).usTag then
      if (st.pTimerList usIdx).enType = PUTIMER_TYPE_SINGLESHOT then
        let r := putimer_remove st.pTimerList st.pQueue usIdx tsNow
        ( 0
        , { st with
            pTimerList := updSlot r.slots usIdx
              { r.slots usIdx with
                tsEnd := timespec_realtime_to_monotonic pWake stMT stRT
                iUseAbsTime := true }
            pQueue := r.queue } )
      else (-1, st)
    else (-1, st)
  else (-1, st)

/-- Translation of `putimer_start`.  `tsNow` models the `clock_gettime` read
inside `putimer_add`. -/
def putimer_start (st : PutimerSt) (hndTimer : Nat) (tsNow : Timespec) :
    Int × PutimerSt :=
  let usIdx := PUTIMER_HND_GET_IDX hndTimer
  if usIdx < PUTIMER_MAX_RESOURCES then
    let usTag := PUTIMER_HND_GET_TAG hndTimer
    if usTag = (st.pTimerList usIdx).usTag then
      let r := putimer_add st.pTimerList st.pQueue usIdx tsNow
      (0, { st with pTimerList := r.slots, pQueue := r.queue })
    else (-1, st)
  else (-1, st)

/-- Translation of `putimer_is_active` (return code and the `*pActive` out
parameter; the state is never mutated). -/
def putimer_is_active (st : PutimerSt) (hndTimer : Nat) : Int × Bool :=
  let usIdx := PUTIMER_HND_GET_IDX hndTimer
  if usIdx < PUTIMER_MAX_RESOURCES then
    let usTag := PUTIMER_HND_GET_TAG hndTimer
    if usTag = (st.pTimerList usIdx).usTag then
      (0, decide ((st.pTimerList usIdx).enState ≠ PUTIMER_STATE_IDLE))
    else (-1, false)
  else (-1, false)

/-- Translation of `putimer_stop` (return code, `*pMsLeft`, new state). -/
def putimer_stop (st : PutimerSt) (hndTimer : Nat) (tsNow : Timespec) :
    Int × Nat × PutimerSt :=
  let usIdx := PUTIMER_HND_GET_IDX hndTimer
  if usIdx < PUTIMER_MAX_RESOURCES then
    let usTag := PUTIMER_HND_GET_TAG hndTimer
    if usTag = (st.pTimerList usIdx).usTag then
      let r := putimer_remove st.pTimerList st.pQueue usIdx tsNow
      (0, r.uiRemainingMs, { st with pTimerList := r.slots, pQueue := r.queue })
    else (-1, 0, st)
  else (-1, 0, st)

/-- A create or delete call, for reasoning about operation sequences. -/
inductive PutimerOp where
  | create (enType : PutimerType) (fctCallback uiPeriodMs pCookie : Nat)
      (bLockable : Bool)
  | del (hndTimer : Nat) (tsNow : Timespec)

/-- Apply one create/delete call to the module state. -/
def putimer_apply (st : PutimerSt) : PutimerOp → PutimerSt
  | .create ty fct p c l => (putimer_create_local st ty fct p c l).2
  | .del hnd now => (putimer_delete st hnd now).2

/-- Run a sequence of create/delete calls from a starting state. -/
def putimer_run (st : PutimerSt) (ops : List PutimerOp) : PutimerSt :=
  ops.foldl putimer_apply st

/-- Ascending expiration order on the queue: every earlier entry's end time
is not strictly after any later entry's end time. -/
def queueSorted (slots : Nat → PutimerTmr) (q : List Nat) : Prop :=
  q.Pairwise
    (fun i j => timespec_is_a_after_b (slots i).tsEnd (slots j).tsEnd = false)

instance (slots : Nat → PutimerTmr) (q : List Nat) :
    Decidable (queueSorted slots q) := by
  unfold queueSorted
  infer_instance

/-- The good-delete restriction: a delete call whose handle decodes to tag 0
can match a free slot's zero tag; such calls are excluded. -/
def goodOp : PutimerOp → Prop
  | .create _ _ _ _ _ => True
  | .del hnd _ => PUTIMER_HND_GET_TAG hnd ≠ 0

/-- Number of slots with a non-zero tag in a slot pool. -/
def tagCount (slots : Nat → PutimerTmr) : Nat :=
  (List.range PUTIMER_MAX_RESOURCES).countP
    (fun i => decide ((slots i).usTag ≠ 0))

/-- Number of allocated slots (non-zero tag) in the pool. -/
def allocCount (st : PutimerSt) : Nat := tagCount st.pTimerList

/-- Inductive invariant tying the allocation count, the bitmap and the slot
tags together (the third conjunct records that an allocated slot's `usID`
field holds its own index, which `putimer_delete` relies on when it calls
`putimer_free_id(pTmr->usID)`). -/
def PutimerInv (st : PutimerSt) : Prop :=
  st.uiAllocatedTimers = allocCount st ∧
  (∀ i < PUTIMER_MAX_RESOURCES,
      (st.pTimerId i = true ↔ (st.pTimerList i).usTag ≠ 0)) ∧
  (∀ i < PUTIMER_MAX_RESOURCES,
      (st.pTimerList i).usTag ≠ 0 → (st.pTimerList i).usID = i)

/-! ### Timespec arithmetic lemmas -/

theorem isAfter_true_iff_lex (a b : Timespec) :
    timespec_is_a_after_b a b = true ↔
      (b.tv_sec < a.tv_sec ∨ (a.tv_sec = b.tv_sec ∧ b.tv_nsec < a.tv_nsec)) := by
  unfold timespec_is_a_after_b
  by_cases h : a.tv_sec > b.tv_sec <;> by_cases h2 : a.tv_sec = b.tv_sec <;>
    simp [h, h2]

theorem isAfter_false_iff_lex (a b : Timespec) :
    timespec_is_a_after_b a b = false ↔
      (a.tv_sec < b.tv_sec ∨ (a.tv_sec = b.tv_sec ∧ a.tv_nsec ≤ b.tv_nsec)) := by
  rw [← Bool.not_eq_true, isAfter_true_iff_lex]
  omega

theorem isAfter_asymm (a b : Timespec)
    (h : timespec_is_a_after_b a b = true) :
    timespec_is_a_after_b b a = false := by
  rw [isAfter_true_iff_lex] at h
  rw [isAfter_false_iff_lex]
  omega

theorem isAfter_false_trans (a b c : Timespec)
    (hab : timespec_is_a_after_b a b = false)
    (hbc : timespec_is_a_after_b b c = false) :
    timespec_is_a_after_b a c = false := by
  rw [isAfter_false_iff_lex] at hab hbc ⊢
  omega

theorem isAfter_true_of_le_of_lt (a b c : Timespec)
    (hab : timespec_is_a_after_b a b = false)
    (hac : timespec_is_a_after_b a c = true) :
    timespec_is_a_after_b b c = true := by
  rw [isAfter_false_iff_lex] at hab
  rw [isAfter_true_iff_lex] at hac ⊢
  omega

theorem isAfter_iff_toNs (a b : Timespec)
    (ha0 : 0 ≤ a.tv_nsec) (ha1 : a.tv_nsec ≤ 1000000000)
    (hb : tsNormalized b) :
    timespec_is_a_after_b a b = true ↔ toNs b < toNs a := by
  obtain ⟨hb0, hb1⟩ := hb
  rw [isAfter_true_iff_lex]
  unfold toNs
  omega

theorem timespec_a_sub_b_toNs (a b : Timespec) :
    toNs (timespec_a_sub_b a b) = toNs a - toNs b := by
  unfold timespec_a_sub_b toNs
  split <;> simp <;> ring_nf

theorem timespec_a_sub_b_nsec_bounds (a b : Timespec)
    (ha0 : 0 ≤ a.tv_nsec) (ha1 : a.tv_nsec ≤ 1000000000)
    (hb : tsNormalized b) :
    0 ≤ (timespec_a_sub_b a b).tv_nsec ∧
      (timespec_a_sub_b a b).tv_nsec ≤ 1000000000 := by
  obtain ⟨hb0, hb1⟩ := hb
  unfold timespec_a_sub_b
  split <;> simp <;> omega

theorem timespec_add_ms_toNs (ts : Timespec) (ms : Nat) :
    toNs (timespec_add_ms ts ms) = toNs ts + (ms : Int) * 1000000 := by
  unfold timespec_add_ms toNs
  simp only []
  split <;> simp <;> omega

theorem timespec_add_ms_nsec_bounds (ts : Timespec) (ms : Nat)
    (h : tsNormalized ts) :
    0 ≤ (timespec_add_ms ts ms).tv_nsec ∧
      (timespec_add_ms ts ms).tv_nsec ≤ 1000000000 := by
  obtain ⟨h0, h1⟩ := h
  unfold timespec_add_ms
  simp only []
  split <;> simp <;> omega

theorem putimer_remaining_ms_eq (tsEnd tsNow : Timespec)
    (h0 : 0 ≤ tsEnd.tv_nsec) (h1 : tsEnd.tv_nsec ≤ 1000000000)
    (hn : tsNormalized tsNow) :
    (putimer_remaining_ms tsEnd tsNow : Int) =
      max 0 (toNs tsEnd - toNs tsNow) / 1000000 := by
  unfold putimer_remaining_ms
  simp only []
  by_cases hafter : timespec_is_a_after_b tsEnd tsNow = true
  · rw [if_pos hafter]
    have hlt : toNs tsNow < toNs tsEnd := (isAfter_iff_toNs _ _ h0 h1 hn).mp hafter
    have hval := timespec_a_sub_b_toNs tsEnd tsNow
    have hbnd := timespec_a_sub_b_nsec_bounds tsEnd tsNow h0 h1 hn
    set d := timespec_a_sub_b tsEnd tsNow with hd
    have hsec : 0 ≤ d.tv_sec := by
      unfold toNs at hval hlt
      omega
    have htd : Int.tdiv d.tv_nsec 1000000 = d.tv_nsec / 1000000 :=
      Int.tdiv_eq_ediv hbnd.1 (by norm_num)
    have hnonneg : 0 ≤ d.tv_nsec / 1000000 + d.tv_sec * 1000 := by
      have := Int.ediv_nonneg hbnd.1 (by norm_num : (0:Int) ≤ 1000000)
      omega
    rw [htd, Int.toNat_of_nonneg hnonneg]
    have hmax : max 0 (toNs tsEnd - toNs tsNow) = toNs d := by
      rw [hval]; omega
    rw [hmax]
    have : toNs d = d.tv_nsec + d.tv_sec * 1000 * 1000000 := by
      unfold toNs; ring
    rw [this, Int.add_mul_ediv_right _ _ (by norm_num : (1000000:Int) ≠ 0)]
  · rw [if_neg hafter]
    have hle : toNs tsEnd ≤ toNs tsNow := by
      have hfalse : timespec_is_a_after_b tsEnd tsNow = false := by
        revert hafter; cases timespec_is_a_after_b tsEnd tsNow <;> simp
      rw [isAfter_false_iff_lex] at hfalse
      unfold toNs
      obtain ⟨hn0, hn1⟩ := hn
      omega
    have : max 0 (toNs tsEnd - toNs tsNow) = 0 := by omega
    rw [this]
    simp

/-! ### Queue loop lemmas -/

theorem putimer_remove_find_of_not_mem (q : List Nat) (id : Nat)
    (h : id ∉ q) : putimer_remove_find q id = none := by
  induction q with
  | nil => rfl
  | cons j rest ih =>
    rw [List.mem_cons] at h
    push_neg at h
    unfold putimer_remove_find
    rw [if_neg (Ne.symm h.1), ih h.2]

theorem putimer_remove_find_of_mem (q : List Nat) (id : Nat) (h : id ∈ q) :
    putimer_remove_find q id =
      some (decide (q.head? = some id), q.erase id) := by
  induction q with
  | nil => cases h
  | cons j rest ih =>
    by_cases hj : j = id
    · subst hj
      unfold putimer_remove_find
      simp [List.erase_cons_head]
    · have h2 : id ∈ rest := by
        rcases List.mem_cons.mp h with h' | h'
        · exact absurd h'.symm hj
        · exact h'
      unfold putimer_remove_find
      rw [if_neg hj, ih h2]
      have hh : decide ((j :: rest).head? = some id) = false := by
        simp [hj]
      rw [hh]
      simp [List.erase_cons, hj]

theorem putimer_add_loop_eq (slots : Nat → PutimerTmr) (tsEnd : Timespec)
    (id : Nat) (q : List Nat) :
    putimer_add_loop slots tsEnd id q =
      (q.takeWhile (fun j => !timespec_is_a_after_b (slots j).tsEnd tsEnd) ++
        id :: q.dropWhile (fun j => !timespec_is_a_after_b (slots j).tsEnd tsEnd),
       decide (q.takeWhile
         (fun j => !timespec_is_a_after_b (slots j).tsEnd tsEnd) = [])) := by
  induction q with
  | nil => rfl
  | cons j rest ih =>
    unfold putimer_add_loop
    by_cases hj : timespec_is_a_after_b (slots j).tsEnd tsEnd = true
    · simp [List.takeWhile_cons, List.dropWhile_cons, hj]
    · rw [Bool.not_eq_true] at hj
      simp [List.takeWhile_cons, List.dropWhile_cons, hj, ih]

theorem putimer_pop_loop_eq (slots : Nat → PutimerTmr) (tsNow : Timespec)
    (q : List Nat) :
    putimer_pop_loop slots tsNow q =
      (q.takeWhile (fun j => !timespec_is_a_after_b (slots j).tsEnd tsNow),
       q.dropWhile (fun j => !timespec_is_a_after_b (slots j).tsEnd tsNow)) := by
  induction q with
  | nil => rfl
  | cons j rest ih =>
    unfold putimer_pop_loop
    by_cases hj : timespec_is_a_after_b (slots j).tsEnd tsNow = true
    · simp [List.takeWhile_cons, List.dropWhile_cons, hj]
    · rw [Bool.not_eq_true] at hj
      simp [List.takeWhile_cons, List.dropWhile_cons, hj, ih]

theorem takeWhile_congr_of_agree (p q : Nat → Bool) (l : List Nat)
    (h : ∀ x ∈ l, p x = q x) :
    l.takeWhile p = l.takeWhile q ∧ l.dropWhile p = l.dropWhile q := by
  induction l with
  | nil => exact ⟨rfl, rfl⟩
  | cons a rest ih =>
    have ha := h a (List.mem_cons_self a rest)
    have ih' := ih (fun x hx => h x (List.mem_cons_of_mem a hx))
    rw [List.takeWhile_cons, List.takeWhile_cons, List.dropWhile_cons,
      List.dropWhile_cons, ha, ih'.1, ih'.2]
    exact ⟨rfl, rfl⟩

theorem countP_update_true (l : List Nat) (f g : Nat → Bool) (j : Nat)
    (hmem : j ∈ l) (hnd : l.Nodup)
    (hoff : ∀ k, k ≠ j → f k = g k) (hfj : f j = false) (hgj : g j = true) :
    l.countP g = l.countP f + 1 := by
  induction l with
  | nil => cases hmem
  | cons a rest ih =>
    rw [List.countP_cons, List.countP_cons]
    rw [List.nodup_cons] at hnd
    rcases List.mem_cons.mp hmem with rfl | hmem'
    · have hrest : rest.countP f = rest.countP g := by
        apply List.countP_congr
        intro x hx
        rw [hoff x (fun he => hnd.1 (he ▸ hx))]
      rw [hfj, hgj, hrest]
      simp
    · have ha : f a = g a := hoff a (fun he => hnd.1 (he ▸ hmem'))
      rw [ih hmem' hnd.2, ha]
      omega

theorem putimer_next_tag_bounds (r : Nat) :
    putimer_next_tag r ≠ 0 ∧ putimer_next_tag r < 65536 := by
  unfold putimer_next_tag
  simp only []
  split <;> omega

theorem putimer_remove_slots_id (slots : Nat → PutimerTmr) (queue : List Nat)
    (id : Nat) (tsNow : Timespec) :
    (putimer_remove slots queue id tsNow).slots id =
      { slots id with enState := PUTIMER_STATE_IDLE } := by
  unfold putimer_remove
  simp only []
  split
  · split <;> simp [updSlot]
  · simp [updSlot]

theorem putimer_remove_slots_off (slots : Nat → PutimerTmr) (queue : List Nat)
    (id : Nat) (tsNow : Timespec) (j : Nat) (hj : j ≠ id) :
    (putimer_remove slots queue id tsNow).slots j = slots j := by
  unfold putimer_remove
  simp only []
  split
  · split <;> simp [updSlot, hj]
  · simp [updSlot, hj]

theorem putimer_remove_tags (slots : Nat → PutimerTmr) (queue : List Nat)
    (id : Nat) (tsNow : Timespec) (j : Nat) :
    ((putimer_remove slots queue id tsNow).slots j).usTag = (slots j).usTag := by
  by_cases hj : j = id
  · subst hj; rw [putimer_remove_slots_id]
  · rw [putimer_remove_slots_off _ _ _ _ _ hj]

theorem putimer_remove_usIDs (slots : Nat → PutimerTmr) (queue : List Nat)
    (id : Nat) (tsNow : Timespec) (j : Nat) :
    ((putimer_remove slots queue id tsNow).slots j).usID = (slots j).usID := by
  by_cases hj : j = id
  · subst hj; rw [putimer_remove_slots_id]
  · rw [putimer_remove_slots_off _ _ _ _ _ hj]

theorem putimer_insert_sorted (slots' : Nat → PutimerTmr) (queue : List Nat)
    (id : Nat) (hnotin : id ∉ queue) (hsorted : queueSorted slots' queue) :
    queueSorted slots'
      (queue.takeWhile
          (fun j => !timespec_is_a_after_b (slots' j).tsEnd (slots' id).tsEnd)
        ++ id :: queue.dropWhile
          (fun j => !timespec_is_a_after_b (slots' j).tsEnd (slots' id).tsEnd)) := by
  set p := fun j => !timespec_is_a_after_b (slots' j).tsEnd (slots' id).tsEnd
    with hp
  have hq : queue.takeWhile p ++ queue.dropWhile p = queue :=
    List.takeWhile_append_dropWhile p queue
  have hsq : List.Pairwise
      (fun i j => timespec_is_a_after_b (slots' i).tsEnd (slots' j).tsEnd = false)
      (queue.takeWhile p ++ queue.dropWhile p) := by
    rw [hq]; exact hsorted
  rw [List.pairwise_append] at hsq
  obtain ⟨htake, hdrop, hcross⟩ := hsq
  unfold queueSorted
  rw [List.pairwise_append]
  refine ⟨htake, ?_, ?_⟩
  · rw [List.pairwise_cons]
    refine ⟨?_, hdrop⟩
    intro b hb
    cases hdw : queue.dropWhile p with
    | nil => rw [hdw] at hb; cases hb
    | cons j0 rest =>
      have hj0 : p j0 = false := by
        have hh := List.head?_dropWhile_not p queue
        rw [hdw] at hh
        simpa using hh
      have hj0after : timespec_is_a_after_b (slots' j0).tsEnd
          (slots' id).tsEnd = true := by
        rw [hp] at hj0
        simpa using hj0
      have hle0 : timespec_is_a_after_b (slots' id).tsEnd
          (slots' j0).tsEnd = false := isAfter_asymm _ _ hj0after
      rw [hdw] at hb hdrop
      rcases List.mem_cons.mp hb with rfl | hb'
      · exact hle0
      · exact isAfter_false_trans _ _ _ hle0
          (List.rel_of_pairwise_cons hdrop hb')
  · intro a ha b hb
    rcases List.mem_cons.mp hb with rfl | hb'
    · have hpa := List.mem_takeWhile_imp ha
      rw [hp] at hpa
      simpa using hpa
    · exact hcross a ha b hb'

theorem putimer_add_general (slots : Nat → PutimerTmr) (queue : List Nat)
    (id : Nat) (pTmr1 : PutimerTmr)
    (hnotin : id ∉ queue) (hsorted : queueSorted slots queue) :
    (putimer_add_loop (updSlot slots id pTmr1) pTmr1.tsEnd id queue).1 =
      queue.takeWhile
          (fun j => !timespec_is_a_after_b (slots j).tsEnd pTmr1.tsEnd)
        ++ id :: queue.dropWhile
          (fun j => !timespec_is_a_after_b (slots j).tsEnd pTmr1.tsEnd) ∧
    queueSorted
      (updSlot (updSlot slots id pTmr1) id
        { pTmr1 with enState := PUTIMER_STATE_WAITING })
      (putimer_add_loop (updSlot slots id pTmr1) pTmr1.tsEnd id queue).1 ∧
    ((putimer_add_loop (updSlot slots id pTmr1) pTmr1.tsEnd id queue).2 = true
      ↔ (putimer_add_loop
          (updSlot slots id pTmr1) pTmr1.tsEnd id queue).1.head? = some id) := by
  have hagree : ∀ x ∈ queue,
      (fun j => !timespec_is_a_after_b ((updSlot slots id pTmr1) j).tsEnd
        pTmr1.tsEnd) x =
      (fun j => !timespec_is_a_after_b (slots j).tsEnd pTmr1.tsEnd) x := by
    intro j hj
    have hji : j ≠ id := fun he => hnotin (he ▸ hj)
    simp [updSlot, hji]
  have hcongr := takeWhile_congr_of_agree _ _ queue hagree
  have hloop := putimer_add_loop_eq (updSlot slots id pTmr1) pTmr1.tsEnd id queue
  rw [hcongr.1, hcongr.2] at hloop
  rw [hloop]
  refine ⟨rfl, ?_, ?_⟩
  · -- sorted after the insertion
    set slotsF := updSlot (updSlot slots id pTmr1) id
      { pTmr1 with enState := PUTIMER_STATE_WAITING } with hF
    have hFid : slotsF id = { pTmr1 with enState := PUTIMER_STATE_WAITING } := by
      rw [hF]; simp [updSlot]
    have hFoff : ∀ j, j ≠ id → slotsF j = slots j := by
      intro j hj
      rw [hF]; simp [updSlot, hj]
    have hsortedF : queueSorted slotsF queue := by
      unfold queueSorted at hsorted ⊢
      refine List.Pairwise.imp_of_mem ?_ hsorted
      intro a b ha hb hab
      rw [hFoff a (fun he => hnotin (he ▸ ha)),
          hFoff b (fun he => hnotin (he ▸ hb))]
      exact hab
    have hins := putimer_insert_sorted slotsF queue id hnotin hsortedF
    have hagreeF : ∀ x ∈ queue,
        (fun j => !timespec_is_a_after_b (slotsF j).tsEnd (slotsF id).tsEnd) x =
        (fun j => !timespec_is_a_after_b (slots j).tsEnd pTmr1.tsEnd) x := by
      intro j hj
      have hji : j ≠ id := fun he => hnotin (he ▸ hj)
      simp only []
      rw [hFoff j hji, hFid]
    have hcongrF := takeWhile_congr_of_agree _ _ queue hagreeF
    rwa [hcongrF.1, hcongrF.2] at hins
  · -- the head changed exactly when the new entry is the head
    cases htw : queue.takeWhile
        (fun j => !timespec_is_a_after_b (slots j).tsEnd pTmr1.tsEnd) with
    | nil => simp
    | cons t ts =>
      have htmem : t ∈ queue := by
        have : t ∈ queue.takeWhile
            (fun j => !timespec_is_a_after_b (slots j).tsEnd pTmr1.tsEnd) := by
          rw [htw]; exact List.mem_cons_self t ts
        exact List.Sublist.mem this (List.takeWhile_sublist _)
      have hti : t ≠ id := fun he => hnotin (he ▸ htmem)
      simp [hti]

/-! ### Claim theorems -/

/-- C1: every public operation other than create rejects a handle whose
decoded slot index is out of range (≥ 128) or whose decoded tag differs from
the slot's current tag: it returns -1 and leaves the whole module state (pool,
bitmap, allocation count, pending queue, every slot) unchanged. -/
theorem stale_handle_no_mutation (st : PutimerSt) (hnd : Nat)
    (tsNow pWake stMT stRT : Timespec) (uiPeriodMs : Nat)
    (hstale : ¬ (PUTIMER_HND_GET_IDX hnd < PUTIMER_MAX_RESOURCES) ∨
      PUTIMER_HND_GET_TAG hnd ≠
        (st.pTimerList (PUTIMER_HND_GET_IDX hnd)).usTag) :
    putimer_start st hnd tsNow = (-1, st) ∧
    putimer_stop st hnd tsNow = (-1, 0, st) ∧
    putimer_set_period st hnd uiPeriodMs tsNow = (-1, st) ∧
    putimer_set_wake_time st hnd pWake tsNow stMT stRT = (-1, st) ∧
    (putimer_is_active st hnd).1 = -1 ∧
    putimer_delete st hnd tsNow = (-1, st) := by
  unfold putimer_start putimer_stop putimer_set_period putimer_set_wake_time
    putimer_is_active putimer_delete
  rcases hstale with h | h
  · simp [h]
  · by_cases hidx : PUTIMER_HND_GET_IDX hnd < PUTIMER_MAX_RESOURCES <;>
      simp [hidx, h]

/-- Witness for C1 at a concrete stale handle (index 200 ≥ 128). -/
theorem stale_handle_no_mutation_witness :
    (¬ (PUTIMER_HND_GET_IDX 13107200 < PUTIMER_MAX_RESOURCES) ∨
      PUTIMER_HND_GET_TAG 13107200 ≠
        ((putimer_init_state).pTimerList
          (PUTIMER_HND_GET_IDX 13107200)).usTag) ∧
    (putimer_start putimer_init_state 13107200 { tv_sec := 0, tv_nsec := 0 } =
        (-1, putimer_init_state) ∧
      putimer_stop putimer_init_state 13107200 { tv_sec := 0, tv_nsec := 0 } =
        (-1, 0, putimer_init_state) ∧
      putimer_set_period putimer_init_state 13107200 50
          { tv_sec := 0, tv_nsec := 0 } = (-1, putimer_init_state) ∧
      putimer_set_wake_time putimer_init_state 13107200
          { tv_sec := 7, tv_nsec := 0 } { tv_sec := 0, tv_nsec := 0 }
          { tv_sec := 0, tv_nsec := 0 } { tv_sec := 0, tv_nsec := 0 } =
        (-1, putimer_init_state) ∧
      (putimer_is_active putimer_init_state 13107200).1 = -1 ∧
      putimer_delete putimer_init_state 13107200 { tv_sec := 0, tv_nsec := 0 } =
        (-1, putimer_init_state)) :=
  ⟨Or.inl (by decide),
   stale_handle_no_mutation putimer_init_state 13107200
     { tv_sec := 0, tv_nsec := 0 } { tv_sec := 7, tv_nsec := 0 }
     { tv_sec := 0, tv_nsec := 0 } { tv_sec := 0, tv_nsec := 0 } 50
     (Or.inl (by decide))⟩

/-- C10: `timespec_add_ms` fails to normalize exactly at the boundary: on the
normalized input `{tv_sec 0, tv_nsec 10^6}` with 999 ms the nanosecond sum is
exactly 10^9 and the strict `> 1000000000` test leaves it unreduced, while
the represented value is still the input plus 999 ms. -/
theorem timespec_add_ms_boundary_denormalized :
    (timespec_add_ms { tv_sec := 0, tv_nsec := 1000000 } 999).tv_nsec =
        1000000000 ∧
    tsNormalized { tv_sec := 0, tv_nsec := 1000000 } ∧
    ¬ tsNormalized (timespec_add_ms { tv_sec := 0, tv_nsec := 1000000 } 999) ∧
    toNs (timespec_add_ms { tv_sec := 0, tv_nsec := 1000000 } 999) =
      toNs { tv_sec := 0, tv_nsec := 1000000 } + 999 * 1000000 := by
  refine ⟨rfl, by decide, by decide, rfl⟩

/-- C6: the waiter's dispatch guard invokes a callback only when the entry is
still `FIRED` with a non-zero tag, and a completed `putimer_stop` forces the
slot to `IDLE`, so after the stop the guard rejects the slot — for a lockable
timer (stop and dispatch are serialized by the control mutex) no callback can
fire after the stop has completed. -/
theorem lockable_stop_suppresses_callback (st : PutimerSt) (hnd : Nat)
    (tsNow : Timespec)
    (hlock : (st.pTimerList (PUTIMER_HND_GET_IDX hnd)).bLockable = true)
    (hstop : (putimer_stop st hnd tsNow).1 = 0) :
    (∀ t : PutimerTmr, putimer_fire_check t = true →
        t.enState = PUTIMER_STATE_FIRED ∧ 0 < t.usTag) ∧
    ((putimer_stop st hnd tsNow).2.2.pTimerList
        (PUTIMER_HND_GET_IDX hnd)).enState = PUTIMER_STATE_IDLE ∧
    putimer_fire_check ((putimer_stop st hnd tsNow).2.2.pTimerList
        (PUTIMER_HND_GET_IDX hnd)) = false ∧
    (∀ pCallList, PUTIMER_HND_GET_IDX hnd ∉
        putimer_dispatch_calls
          ((putimer_stop st hnd tsNow).2.2.pTimerList) pCallList) := by
  have hguard : ∀ t : PutimerTmr, putimer_fire_check t = true →
      t.enState = PUTIMER_STATE_FIRED ∧ 0 < t.usTag := by
    intro t ht
    unfold putimer_fire_check at ht
    simp at ht
    exact ht
  by_cases hidx : PUTIMER_HND_GET_IDX hnd < PUTIMER_MAX_RESOURCES
  · by_cases htag : PUTIMER_HND_GET_TAG hnd =
        (st.pTimerList (PUTIMER_HND_GET_IDX hnd)).usTag
    · have hstate : ((putimer_stop st hnd tsNow).2.2.pTimerList
          (PUTIMER_HND_GET_IDX hnd)).enState = PUTIMER_STATE_IDLE := by
        unfold putimer_stop
        simp only [hidx, htag, if_pos, if_true]
        rw [putimer_remove_slots_id]
      have hfire : putimer_fire_check ((putimer_stop st hnd tsNow).2.2.pTimerList
          (PUTIMER_HND_GET_IDX hnd)) = false := by
        unfold putimer_fire_check
        rw [hstate]
        simp
      refine ⟨hguard, hstate, hfire, ?_⟩
      intro pCallList hmem
      unfold putimer_dispatch_calls at hmem
      rw [List.mem_filter] at hmem
      rw [hfire] at hmem
      exact absurd hmem.2 (by simp)
    · unfold putimer_stop at hstop
      simp [hidx, htag] at hstop
  · unfold putimer_stop at hstop
    simp [hidx] at hstop

/-- Witness for C6: a lockable timer created in slot 0, then stopped. -/
theorem lockable_stop_suppresses_callback_witness :
    (((putimer_create_lockable putimer_init_state PUTIMER_TYPE_SINGLESHOT
          1 10 0).2.pTimerList (PUTIMER_HND_GET_IDX 1)).bLockable = true ∧
      (putimer_stop (putimer_create_lockable putimer_init_state
          PUTIMER_TYPE_SINGLESHOT 1 10 0).2 1
          { tv_sec := 0, tv_nsec := 0 }).1 = 0) ∧
    putimer_fire_check ((putimer_stop (putimer_create_lockable putimer_init_state
        PUTIMER_TYPE_SINGLESHOT 1 10 0).2 1
        { tv_sec := 0, tv_nsec := 0 }).2.2.pTimerList
        (PUTIMER_HND_GET_IDX 1)) = false :=
  ⟨⟨by decide, by decide⟩,
   (lockable_stop_suppresses_callback
      (putimer_create_lockable putimer_init_state PUTIMER_TYPE_SINGLESHOT
        1 10 0).2 1 { tv_sec := 0, tv_nsec := 0 }
      (by decide) (by decide)).2.2.1⟩

/-- C5: `putimer_create_local` (for both the lockable and non-lockable
wrappers) clamps the period up to `PUTIMER_MIN_TIMEOUT`; with the pool full
(count = 128) it returns the null handle and changes nothing; otherwise it
takes the first free slot, stamps a fresh non-zero tag, leaves the slot idle
and out of the queue, increments the count and returns the encoded
(index, tag) handle. -/
theorem putimer_create_local_spec (st : PutimerSt) (enType : PutimerType)
    (fctCallback uiPeriodMs pCookie : Nat) (bLockable : Bool)
    (hinit : st.iIsInit = true) (hfct : fctCallback ≠ 0)
    (hty : enType = PUTIMER_TYPE_SINGLESHOT ∨ enType = PUTIMER_TYPE_PERIODIC) :
    (st.uiAllocatedTimers = PUTIMER_MAX_RESOURCES →
      putimer_create_local st enType fctCallback uiPeriodMs pCookie bLockable =
        (0, st)) ∧
    (∀ usID, st.uiAllocatedTimers < PUTIMER_MAX_RESOURCES →
      putimer_alloc_id st.pTimerId = some usID →
      usID < PUTIMER_MAX_RESOURCES ∧
      st.pTimerId usID = false ∧
      (putimer_create_local st enType fctCallback uiPeriodMs pCookie
          bLockable).1 =
        PUTIMER_HND_CREATE usID (putimer_next_tag st.usRollingTag) ∧
      putimer_next_tag st.usRollingTag ≠ 0 ∧
      (((putimer_create_local st enType fctCallback uiPeriodMs pCookie
          bLockable).2.pTimerList usID).usTag =
          putimer_next_tag st.usRollingTag ∧
        ((putimer_create_local st enType fctCallback uiPeriodMs pCookie
          bLockable).2.pTimerList usID).enState = PUTIMER_STATE_IDLE ∧
        ((putimer_create_local st enType fctCallback uiPeriodMs pCookie
          bLockable).2.pTimerList usID).uiPeriodMs =
          (if uiPeriodMs < PUTIMER_MIN_TIMEOUT then PUTIMER_MIN_TIMEOUT
            else uiPeriodMs) ∧
        (putimer_create_local st enType fctCallback uiPeriodMs pCookie
          bLockable).2.uiAllocatedTimers = st.uiAllocatedTimers + 1 ∧
        (putimer_create_local st enType fctCallback uiPeriodMs pCookie
          bLockable).2.pTimerId usID = true ∧
        (putimer_create_local st enType fctCallback uiPeriodMs pCookie
          bLockable).2.pQueue = st.pQueue)) := by
  have hguard : (st.iIsInit ∧ fctCallback ≠ 0 ∧
      (enType = PUTIMER_TYPE_SINGLESHOT ∨ enType = PUTIMER_TYPE_PERIODIC)) := by
    refine ⟨by rw [hinit], hfct, hty⟩
  constructor
  · intro hfull
    unfold putimer_create_local
    rw [if_pos hguard, if_neg (by omega)]
  · intro usID hlt halloc
    have husid : usID < PUTIMER_MAX_RESOURCES := by
      have := List.mem_of_find?_eq_some halloc
      rwa [List.mem_range] at this
    have hfree : st.pTimerId usID = false := by
      have := List.find?_some halloc
      simp at this
      exact this
    refine ⟨husid, hfree, ?_⟩
    unfold putimer_create_local
    rw [if_pos hguard, if_pos hlt, halloc]
    simp [updSlot]
    exact (putimer_next_tag_bounds st.usRollingTag).1

/-- Witness for C5 on the empty initial pool. -/
theorem putimer_create_local_spec_witness :
    (putimer_init_state.iIsInit = true ∧ (1:Nat) ≠ 0 ∧
      (PUTIMER_TYPE_PERIODIC = PUTIMER_TYPE_SINGLESHOT ∨
        PUTIMER_TYPE_PERIODIC = PUTIMER_TYPE_PERIODIC)) ∧
    (∀ usID, putimer_init_state.uiAllocatedTimers < PUTIMER_MAX_RESOURCES →
      putimer_alloc_id putimer_init_state.pTimerId = some usID →
      usID < PUTIMER_MAX_RESOURCES ∧
      putimer_init_state.pTimerId usID = false ∧
      (putimer_create_local putimer_init_state PUTIMER_TYPE_PERIODIC
          1 3 0 false).1 =
        PUTIMER_HND_CREATE usID
          (putimer_next_tag putimer_init_state.usRollingTag) ∧
      putimer_next_tag putimer_init_state.usRollingTag ≠ 0 ∧
      (((putimer_create_local putimer_init_state PUTIMER_TYPE_PERIODIC
          1 3 0 false).2.pTimerList usID).usTag =
          putimer_next_tag putimer_init_state.usRollingTag ∧
        ((putimer_create_local putimer_init_state PUTIMER_TYPE_PERIODIC
          1 3 0 false).2.pTimerList usID).enState = PUTIMER_STATE_IDLE ∧
        ((putimer_create_local putimer_init_state PUTIMER_TYPE_PERIODIC
          1 3 0 false).2.pTimerList usID).uiPeriodMs =
          (if 3 < PUTIMER_MIN_TIMEOUT then PUTIMER_MIN_TIMEOUT else 3) ∧
        (putimer_create_local putimer_init_state PUTIMER_TYPE_PERIODIC
          1 3 0 false).2.uiAllocatedTimers =
          putimer_init_state.uiAllocatedTimers + 1 ∧
        (putimer_create_local putimer_init_state PUTIMER_TYPE_PERIODIC
          1 3 0 false).2.pTimerId usID = true ∧
        (putimer_create_local putimer_init_state PUTIMER_TYPE_PERIODIC
          1 3 0 false).2.pQueue = putimer_init_state.pQueue)) :=
  ⟨⟨rfl, by decide, Or.inr rfl⟩,
   (putimer_create_local_spec putimer_init_state PUTIMER_TYPE_PERIODIC
      1 3 0 false rfl (by decide) (Or.inr rfl)).2⟩

/-- C7: the rolling tag step never produces 0 and stays 16-bit; a successful
create stamps that non-zero tag into the slot and returns a non-null handle
(the tag occupies the handle's low 16 bits); a successful delete zeroes the
slot's tag, after which any handle encoding a non-zero tag for that slot is
rejected. -/
theorem generation_tag_discipline :
    (∀ r, putimer_next_tag r ≠ 0 ∧ putimer_next_tag r < 65536) ∧
    (∀ (st : PutimerSt) enType fctCallback uiPeriodMs pCookie bLockable usID,
      st.iIsInit = true → fctCallback ≠ 0 →
      (enType = PUTIMER_TYPE_SINGLESHOT ∨ enType = PUTIMER_TYPE_PERIODIC) →
      st.uiAllocatedTimers < PUTIMER_MAX_RESOURCES →
      putimer_alloc_id st.pTimerId = some usID →
      ((putimer_create_local st enType fctCallback uiPeriodMs pCookie
          bLockable).2.pTimerList usID).usTag ≠ 0 ∧
      (putimer_create_local st enType fctCallback uiPeriodMs pCookie
          bLockable).1 % 65536 = putimer_next_tag st.usRollingTag ∧
      (putimer_create_local st enType fctCallback uiPeriodMs pCookie
          bLockable).1 ≠ 0) ∧
    (∀ (st : PutimerSt) hnd tsNow, (putimer_delete st hnd tsNow).1 = 0 →
      ((putimer_delete st hnd tsNow).2.pTimerList
          (PUTIMER_HND_GET_IDX hnd)).usTag = 0 ∧
      (∀ t tsNow2, 0 < t → t < 65536 →
        (putimer_stop (putimer_delete st hnd tsNow).2
          (PUTIMER_HND_CREATE (PUTIMER_HND_GET_IDX hnd) t) tsNow2).1 = -1)) := by
  refine ⟨putimer_next_tag_bounds, ?_, ?_⟩
  · intro st enType fctCallback uiPeriodMs pCookie bLockable usID
      hinit hfct hty hlt halloc
    have hguard : (st.iIsInit ∧ fctCallback ≠ 0 ∧
        (enType = PUTIMER_TYPE_SINGLESHOT ∨ enType = PUTIMER_TYPE_PERIODIC)) :=
      ⟨by rw [hinit], hfct, hty⟩
    unfold putimer_create_local
    rw [if_pos hguard, if_pos hlt, halloc]
    simp only [updSlot]
    have h1 := putimer_next_tag_bounds st.usRollingTag
    refine ⟨by simp [h1.1], ?_, ?_⟩
    · unfold PUTIMER_HND_CREATE
      omega
    · unfold PUTIMER_HND_CREATE
      omega
  · intro st hnd tsNow hdel
    by_cases hidx : PUTIMER_HND_GET_IDX hnd < PUTIMER_MAX_RESOURCES
    · by_cases htag : PUTIMER_HND_GET_TAG hnd =
          (st.pTimerList (PUTIMER_HND_GET_IDX hnd)).usTag
      · by_cases hcnt : st.uiAllocatedTimers ≠ 0
        · have hzero : ((putimer_delete st hnd tsNow).2.pTimerList
              (PUTIMER_HND_GET_IDX hnd)).usTag = 0 := by
            unfold putimer_delete
            rw [if_pos hidx, if_pos htag, if_pos hcnt]
            simp [updSlot]
          refine ⟨hzero, ?_⟩
          intro t tsNow2 ht0 ht1
          have hgi : PUTIMER_HND_GET_IDX
              (PUTIMER_HND_CREATE (PUTIMER_HND_GET_IDX hnd) t) =
              PUTIMER_HND_GET_IDX hnd := by
            unfold PUTIMER_HND_CREATE PUTIMER_HND_GET_IDX at hidx ⊢
            unfold PUTIMER_MAX_RESOURCES at hidx
            omega
          have hgt : PUTIMER_HND_GET_TAG
              (PUTIMER_HND_CREATE (PUTIMER_HND_GET_IDX hnd) t) = t := by
            unfold PUTIMER_HND_CREATE PUTIMER_HND_GET_TAG
            omega
          unfold putimer_stop
          rw [hgi, if_pos hidx, hgt, hzero, if_neg (by omega)]
        · unfold putimer_delete at hdel
          rw [if_pos hidx, if_pos htag, if_neg hcnt] at hdel
          simp at hdel
      · unfold putimer_delete at hdel
        rw [if_pos hidx, if_neg htag] at hdel
        simp at hdel
    · unfold putimer_delete at hdel
      rw [if_neg hidx] at hdel
      simp at hdel

/-- Witness for C7: tag step at 0, create into the empty pool, and delete of
that timer followed by a stale-stop attempt. -/
theorem generation_tag_discipline_witness :
    (putimer_next_tag 0 ≠ 0 ∧ putimer_next_tag 0 < 65536) ∧
    (((putimer_create_local putimer_init_state PUTIMER_TYPE_SINGLESHOT
        1 10 0 false).2.pTimerList 0).usTag ≠ 0) ∧
    (((putimer_delete (putimer_create_local putimer_init_state
        PUTIMER_TYPE_SINGLESHOT 1 10 0 false).2 1
        { tv_sec := 0, tv_nsec := 0 }).2.pTimerList
        (PUTIMER_HND_GET_IDX 1)).usTag = 0 ∧
      (putimer_stop (putimer_delete (putimer_create_local putimer_init_state
          PUTIMER_TYPE_SINGLESHOT 1 10 0 false).2 1
          { tv_sec := 0, tv_nsec := 0 }).2
        (PUTIMER_HND_CREATE (PUTIMER_HND_GET_IDX 1) 1)
        { tv_sec := 0, tv_nsec := 0 }).1 = -1) :=
  ⟨generation_tag_discipline.1 0,
   (generation_tag_discipline.2.1 putimer_init_state PUTIMER_TYPE_SINGLESHOT
      1 10 0 false 0 rfl (by decide) (Or.inl rfl) (by decide) (by decide)).1,
   (generation_tag_discipline.2.2 (putimer_create_local putimer_init_state
      PUTIMER_TYPE_SINGLESHOT 1 10 0 false).2 1
      { tv_sec := 0, tv_nsec := 0 } (by decide)).1,
   ((generation_tag_discipline.2.2 (putimer_create_local putimer_init_state
      PUTIMER_TYPE_SINGLESHOT 1 10 0 false).2 1
      { tv_sec := 0, tv_nsec := 0 } (by decide)).2 1
      { tv_sec := 0, tv_nsec := 0 } (by decide) (by decide))⟩

/-- C2: on an idle timer and a sorted queue, `putimer_add` inserts the entry
after all entries whose expiration is equal or earlier and before the first
strictly later one (FIFO among ties), marks it waiting, keeps the queue
sorted, and reports a head update exactly when the new entry became the
head. -/
theorem putimer_add_spec (slots : Nat → PutimerTmr) (queue : List Nat)
    (id : Nat) (tsNow : Timespec)
    (hidle : (slots id).enState = PUTIMER_STATE_IDLE)
    (hnotin : id ∉ queue)
    (hsorted : queueSorted slots queue) :
    ((putimer_add slots queue id tsNow).slots id).enState =
        PUTIMER_STATE_WAITING ∧
    (∀ j, j ≠ id → (putimer_add slots queue id tsNow).slots j = slots j) ∧
    (putimer_add slots queue id tsNow).queue =
      queue.takeWhile (fun j => !timespec_is_a_after_b (slots j).tsEnd
          (((putimer_add slots queue id tsNow).slots id).tsEnd)) ++
        id :: queue.dropWhile (fun j => !timespec_is_a_after_b (slots j).tsEnd
          (((putimer_add slots queue id tsNow).slots id).tsEnd)) ∧
    queueSorted (putimer_add slots queue id tsNow).slots
      (putimer_add slots queue id tsNow).queue ∧
    ((putimer_add slots queue id tsNow).iHeadUpdated = true ↔
      (putimer_add slots queue id tsNow).queue.head? = some id) := by
  by_cases habs : (slots id).iUseAbsTime = true
  · have hres : putimer_add slots queue id tsNow =
        { iHeadUpdated := (putimer_add_loop
            (updSlot slots id { slots id with iUseAbsTime := false })
            ({ slots id with iUseAbsTime := false } : PutimerTmr).tsEnd id
            queue).2
          slots := updSlot
            (updSlot slots id { slots id with iUseAbsTime := false }) id
            { ({ slots id with iUseAbsTime := false } : PutimerTmr) with
              enState := PUTIMER_STATE_WAITING }
          queue := (putimer_add_loop
            (updSlot slots id { slots id with iUseAbsTime := false })
            ({ slots id with iUseAbsTime := false } : PutimerTmr).tsEnd id
            queue).1 } := by
      unfold putimer_add
      rw [if_pos hidle]
      simp only []
      rw [if_pos habs]
    have hg := putimer_add_general slots queue id
      { slots id with iUseAbsTime := false } hnotin hsorted
    rw [hres]
    refine ⟨by simp [updSlot], fun j hj => by simp [updSlot, hj], ?_, ?_, ?_⟩
    · simpa [updSlot] using hg.1
    · exact hg.2.1
    · exact hg.2.2
  · have hres : putimer_add slots queue id tsNow =
        { iHeadUpdated := (putimer_add_loop
            (updSlot slots id
              { slots id with
                tsEnd := timespec_add_ms tsNow (slots id).uiPeriodMs })
            ({ slots id with
                tsEnd := timespec_add_ms tsNow (slots id).uiPeriodMs }
              : PutimerTmr).tsEnd id queue).2
          slots := updSlot
            (updSlot slots id
              { slots id with
                tsEnd := timespec_add_ms tsNow (slots id).uiPeriodMs }) id
            { ({ slots id with
                tsEnd := timespec_add_ms tsNow (slots id).uiPeriodMs }
              : PutimerTmr) with enState := PUTIMER_STATE_WAITING }
          queue := (putimer_add_loop
            (updSlot slots id
              { slots id with
                tsEnd := timespec_add_ms tsNow (slots id).uiPeriodMs })
            ({ slots id with
                tsEnd := timespec_add_ms tsNow (slots id).uiPeriodMs }
              : PutimerTmr).tsEnd id queue).1 } := by
      unfold putimer_add
      rw [if_pos hidle]
      simp only []
      rw [if_neg habs]
    have hg := putimer_add_general slots queue id
      { slots id with tsEnd := timespec_add_ms tsNow (slots id).uiPeriodMs }
      hnotin hsorted
    rw [hres]
    refine ⟨by simp [updSlot], fun j hj => by simp [updSlot, hj], ?_, ?_, ?_⟩
    · simpa [updSlot] using hg.1
    · exact hg.2.1
    · exact hg.2.2

/-- Witness for C2: inserting slot 0 (idle, period 0) into the sorted queue
`[1, 2]` of `sampleSlots` (expirations 10 s and 20 s). -/
theorem putimer_add_spec_witness :
    ((sampleSlots 0).enState = PUTIMER_STATE_IDLE ∧
      (0:Nat) ∉ [1, 2] ∧
      queueSorted sampleSlots [1, 2]) ∧
    ((putimer_add sampleSlots [1, 2] 0
        { tv_sec := 0, tv_nsec := 0 }).slots 0).enState =
      PUTIMER_STATE_WAITING ∧
    ((putimer_add sampleSlots [1, 2] 0
          { tv_sec := 0, tv_nsec := 0 }).iHeadUpdated = true
      ↔ (putimer_add sampleSlots [1, 2] 0
          { tv_sec := 0, tv_nsec := 0 }).queue.head? = some 0) :=
  ⟨⟨by decide, by decide, by decide⟩,
   (putimer_add_spec sampleSlots [1, 2] 0 { tv_sec := 0, tv_nsec := 0 }
      (by decide) (by decide) (by decide)).1,
   (putimer_add_spec sampleSlots [1, 2] 0 { tv_sec := 0, tv_nsec := 0 }
      (by decide) (by decide) (by decide)).2.2.2.2⟩

/-- C3: one extraction pass of the waiter thread detaches exactly the maximal
prefix of entries whose expiration is not after `now`, marks each of them
fired, keeps them in original queue order, leaves the queue head at the first
entry whose expiration is after `now`, and does not touch entries whose
expiration is after `now`. -/
theorem putimer_pop_expired_spec (slots : Nat → PutimerTmr) (queue : List Nat)
    (tsNow : Timespec) (hsorted : queueSorted slots queue) :
    (putimer_pop_expired slots queue tsNow).pCallList =
      queue.takeWhile (fun j => !timespec_is_a_after_b (slots j).tsEnd tsNow) ∧
    (putimer_pop_expired slots queue tsNow).queue =
      queue.dropWhile (fun j => !timespec_is_a_after_b (slots j).tsEnd tsNow) ∧
    (putimer_pop_expired slots queue tsNow).pCallList ++
      (putimer_pop_expired slots queue tsNow).queue = queue ∧
    (∀ j ∈ (putimer_pop_expired slots queue tsNow).pCallList,
      ((putimer_pop_expired slots queue tsNow).slots j).enState =
          PUTIMER_STATE_FIRED ∧
      timespec_is_a_after_b (slots j).tsEnd tsNow = false) ∧
    (∀ j, (putimer_pop_expired slots queue tsNow).queue.head? = some j →
      timespec_is_a_after_b (slots j).tsEnd tsNow = true) ∧
    (∀ j ∈ (putimer_pop_expired slots queue tsNow).queue,
      timespec_is_a_after_b (slots j).tsEnd tsNow = true) ∧
    (∀ j, timespec_is_a_after_b (slots j).tsEnd tsNow = true →
      (putimer_pop_expired slots queue tsNow).slots j = slots j) := by
  have hres : putimer_pop_expired slots queue tsNow =
      { pCallList := queue.takeWhile
          (fun j => !timespec_is_a_after_b (slots j).tsEnd tsNow)
        queue := queue.dropWhile
          (fun j => !timespec_is_a_after_b (slots j).tsEnd tsNow)
        slots := fun k =>
          if k ∈ queue.takeWhile
              (fun j => !timespec_is_a_after_b (slots j).tsEnd tsNow) then
            { slots k with enState := PUTIMER_STATE_FIRED }
          else slots k } := by
    unfold putimer_pop_expired
    rw [putimer_pop_loop_eq]
  rw [hres]
  refine ⟨rfl, rfl, List.takeWhile_append_dropWhile _ _, ?_, ?_, ?_, ?_⟩
  · intro j hj
    refine ⟨by simp [hj], ?_⟩
    have := List.mem_takeWhile_imp hj
    simpa using this
  · intro j hj
    have hh := List.head?_dropWhile_not
      (fun j => !timespec_is_a_after_b (slots j).tsEnd tsNow) queue
    rw [hj] at hh
    simpa using hh
  · intro j hj
    cases hdw : queue.dropWhile
        (fun j => !timespec_is_a_after_b (slots j).tsEnd tsNow) with
    | nil => rw [hdw] at hj; cases hj
    | cons j0 rest =>
      have hj0 : timespec_is_a_after_b (slots j0).tsEnd tsNow = true := by
        have hh := List.head?_dropWhile_not
          (fun j => !timespec_is_a_after_b (slots j).tsEnd tsNow) queue
        rw [hdw] at hh
        simpa using hh
      have hdp : List.Pairwise (fun i j =>
          timespec_is_a_after_b (slots i).tsEnd (slots j).tsEnd = false)
          (j0 :: rest) := by
        rw [← hdw]
        exact List.Pairwise.sublist (List.dropWhile_sublist _) hsorted
      rw [hdw] at hj
      rcases List.mem_cons.mp hj with rfl | hj'
      · exact hj0
      · exact isAfter_true_of_le_of_lt _ _ _
          (List.rel_of_pairwise_cons hdp hj') hj0
  · intro j hj
    have hnot : j ∉ queue.takeWhile
        (fun j => !timespec_is_a_after_b (slots j).tsEnd tsNow) := by
      intro hmem
      have := List.mem_takeWhile_imp hmem
      rw [hj] at this
      simp at this
    simp [hnot]

/-- Witness for C3: extracting from the sorted queue `[1, 2]` of
`sampleSlots` at 15 s pops slot 1 (expired at 10 s) and leaves slot 2
(expires at 20 s) at the head. -/
theorem putimer_pop_expired_spec_witness :
    queueSorted sampleSlots [1, 2] ∧
    (putimer_pop_expired sampleSlots [1, 2]
        { tv_sec := 15, tv_nsec := 0 }).pCallList =
      List.takeWhile (fun j => !timespec_is_a_after_b
        (sampleSlots j).tsEnd { tv_sec := 15, tv_nsec := 0 }) [1, 2] ∧
    (∀ j ∈ (putimer_pop_expired sampleSlots [1, 2]
        { tv_sec := 15, tv_nsec := 0 }).queue,
      timespec_is_a_after_b (sampleSlots j).tsEnd
        { tv_sec := 15, tv_nsec := 0 } = true) :=
  ⟨by decide,
   (putimer_pop_expired_spec sampleSlots [1, 2] { tv_sec := 15, tv_nsec := 0 }
      (by decide)).1,
   (putimer_pop_expired_spec sampleSlots [1, 2] { tv_sec := 15, tv_nsec := 0 }
      (by decide)).2.2.2.2.2.1⟩

/-- C4: `putimer_remove` forces the slot to idle regardless of its prior
state; exactly when the prior state was waiting it unlinks the slot from
the queue and reports `was_active`; the reported remaining time is
`max(0, expiration - now)` in whole milliseconds (0 when the expiration is
not after now); the return value is non-zero exactly when the removed entry
was the queue head; when the prior state was not waiting the queue is
unchanged and the remaining time is reported as 0. -/
theorem putimer_remove_spec (slots : Nat → PutimerTmr) (queue : List Nat)
    (id : Nat) (tsNow : Timespec)
    (hinq : (slots id).enState = PUTIMER_STATE_WAITING ↔ id ∈ queue)
    (hnodup : queue.Nodup)
    (hend0 : 0 ≤ (slots id).tsEnd.tv_nsec)
    (hend1 : (slots id).tsEnd.tv_nsec ≤ 1000000000)
    (hnow : tsNormalized tsNow) :
    ((putimer_remove slots queue id tsNow).slots id).enState =
        PUTIMER_STATE_IDLE ∧
    (∀ j, j ≠ id → (putimer_remove slots queue id tsNow).slots j = slots j) ∧
    ((putimer_remove slots queue id tsNow).iWasActive = true ↔
      (slots id).enState = PUTIMER_STATE_WAITING) ∧
    ((slots id).enState = PUTIMER_STATE_WAITING →
      (putimer_remove slots queue id tsNow).queue = queue.erase id ∧
      id ∉ (putimer_remove slots queue id tsNow).queue ∧
      ((putimer_remove slots queue id tsNow).uiRemainingMs : Int) =
        max 0 (toNs (slots id).tsEnd - toNs tsNow) / 1000000) ∧
    ((slots id).enState ≠ PUTIMER_STATE_WAITING →
      (putimer_remove slots queue id tsNow).queue = queue ∧
      (putimer_remove slots queue id tsNow).uiRemainingMs = 0) ∧
    (timespec_is_a_after_b (slots id).tsEnd tsNow = false →
      (putimer_remove slots queue id tsNow).uiRemainingMs = 0) ∧
    ((putimer_remove slots queue id tsNow).iHeadUpdated = true ↔
      ((slots id).enState = PUTIMER_STATE_WAITING ∧
        queue.head? = some id)) := by
  by_cases hw : (slots id).enState = PUTIMER_STATE_WAITING
  · have hmem : id ∈ queue := hinq.mp hw
    have hfind := putimer_remove_find_of_mem queue id hmem
    have hres : putimer_remove slots queue id tsNow =
        { iHeadUpdated := decide (queue.head? = some id)
          iWasActive := true
          uiRemainingMs := putimer_remaining_ms (slots id).tsEnd tsNow
          slots := updSlot slots id
            { slots id with enState := PUTIMER_STATE_IDLE }
          queue := queue.erase id } := by
      unfold putimer_remove
      simp only []
      rw [hfind]
      simp [hw]
    rw [hres]
    refine ⟨by simp [updSlot], fun j hj => by simp [updSlot, hj],
      by simp [hw], ?_, by simp [hw], ?_, by simp [hw]⟩
    · intro _
      refine ⟨rfl, List.Nodup.not_mem_erase hnodup, ?_⟩
      exact putimer_remaining_ms_eq (slots id).tsEnd tsNow hend0 hend1 hnow
    · intro hafter
      unfold putimer_remaining_ms
      rw [hafter]
      simp
  · have hres : putimer_remove slots queue id tsNow =
        { iHeadUpdated := false
          iWasActive := false
          uiRemainingMs := 0
          slots := updSlot slots id
            { slots id with enState := PUTIMER_STATE_IDLE }
          queue := queue } := by
      unfold putimer_remove
      simp only []
      simp [hw]
    rw [hres]
    refine ⟨by simp [updSlot], fun j hj => by simp [updSlot, hj],
      by simp [hw], fun h => absurd h hw, fun _ => ⟨rfl, rfl⟩,
      fun _ => rfl, by simp [hw]⟩

/-- Witness for C4: removing the waiting slot 1 from the queue `[1, 2]` of
`sampleSlots` at 3.5 s (6.5 s before its 10 s expiration). -/
theorem putimer_remove_spec_witness :
    (((sampleSlots 1).enState = PUTIMER_STATE_WAITING ↔ (1:Nat) ∈ [1, 2]) ∧
      ([1, 2] : List Nat).Nodup ∧
      0 ≤ (sampleSlots 1).tsEnd.tv_nsec ∧
      (sampleSlots 1).tsEnd.tv_nsec ≤ 1000000000 ∧
      tsNormalized { tv_sec := 3, tv_nsec := 500000000 }) ∧
    ((sampleSlots 1).enState = PUTIMER_STATE_WAITING →
      (putimer_remove sampleSlots [1, 2] 1
          { tv_sec := 3, tv_nsec := 500000000 }).queue = List.erase [1, 2] 1 ∧
      (1:Nat) ∉ (putimer_remove sampleSlots [1, 2] 1
          { tv_sec := 3, tv_nsec := 500000000 }).queue ∧
      ((putimer_remove sampleSlots [1, 2] 1
          { tv_sec := 3, tv_nsec := 500000000 }).uiRemainingMs : Int) =
        max 0 (toNs (sampleSlots 1).tsEnd -
          toNs { tv_sec := 3, tv_nsec := 500000000 }) / 1000000) ∧
    ((putimer_remove sampleSlots [1, 2] 1
        { tv_sec := 3, tv_nsec := 500000000 }).iHeadUpdated = true ↔
      ((sampleSlots 1).enState = PUTIMER_STATE_WAITING ∧
        ([1, 2] : List Nat).head? = some 1)) :=
  ⟨⟨by decide, by decide, by decide, by decide, by decide⟩,
   (putimer_remove_spec sampleSlots [1, 2] 1
      { tv_sec := 3, tv_nsec := 500000000 } (by decide) (by decide)
      (by decide) (by decide) (by decide)).2.2.2.1,
   (putimer_remove_spec sampleSlots [1, 2] 1
      { tv_sec := 3, tv_nsec := 500000000 } (by decide) (by decide)
      (by decide) (by decide) (by decide)).2.2.2.2.2.2⟩

/-- C9 (amended): starting a valid idle timer and stopping it strictly before
its expiration succeeds, reports a remaining time that is at most the
configured (clamped) period, is strictly positive whenever at least one full
millisecond remains (the source reports the floor of the remaining time in
milliseconds, so a sub-millisecond remainder reports 0), and leaves the slot
idle, dequeued and rejected by the dispatch guard, so the callback never
fires. -/
theorem start_stop_before_expiration (st : PutimerSt) (hnd : Nat)
    (tsNow0 tsNow1 : Timespec)
    (hidx : PUTIMER_HND_GET_IDX hnd < PUTIMER_MAX_RESOURCES)
    (htag : PUTIMER_HND_GET_TAG hnd =
      (st.pTimerList (PUTIMER_HND_GET_IDX hnd)).usTag)
    (hidle : (st.pTimerList (PUTIMER_HND_GET_IDX hnd)).enState =
      PUTIMER_STATE_IDLE)
    (habs : (st.pTimerList (PUTIMER_HND_GET_IDX hnd)).iUseAbsTime = false)
    (hnotin : PUTIMER_HND_GET_IDX hnd ∉ st.pQueue)
    (hn0 : tsNormalized tsNow0) (hn1 : tsNormalized tsNow1)
    (hmono : timespec_is_a_after_b tsNow0 tsNow1 = false)
    (hbefore : timespec_is_a_after_b
      (timespec_add_ms tsNow0
        (st.pTimerList (PUTIMER_HND_GET_IDX hnd)).uiPeriodMs) tsNow1 = true) :
    (putimer_stop (putimer_start st hnd tsNow0).2 hnd tsNow1).1 = 0 ∧
    (putimer_stop (putimer_start st hnd tsNow0).2 hnd tsNow1).2.1 ≤
      (st.pTimerList (PUTIMER_HND_GET_IDX hnd)).uiPeriodMs ∧
    (1000000 ≤ toNs (timespec_add_ms tsNow0
        (st.pTimerList (PUTIMER_HND_GET_IDX hnd)).uiPeriodMs) - toNs tsNow1 →
      0 < (putimer_stop (putimer_start st hnd tsNow0).2 hnd tsNow1).2.1) ∧
    ((putimer_stop (putimer_start st hnd tsNow0).2 hnd
        tsNow1).2.2.pTimerList (PUTIMER_HND_GET_IDX hnd)).enState =
      PUTIMER_STATE_IDLE ∧
    PUTIMER_HND_GET_IDX hnd ∉
      (putimer_stop (putimer_start st hnd tsNow0).2 hnd tsNow1).2.2.pQueue ∧
    putimer_fire_check
      ((putimer_stop (putimer_start st hnd tsNow0).2 hnd
        tsNow1).2.2.pTimerList (PUTIMER_HND_GET_IDX hnd)) = false := by
  obtain ⟨hn00, hn01⟩ := hn0
  obtain ⟨hn10, hn11⟩ := hn1
  -- step 1: the armed slot written by putimer_add inside putimer_start
  have hares : putimer_add st.pTimerList st.pQueue (PUTIMER_HND_GET_IDX hnd)
      tsNow0 =
      { iHeadUpdated := (putimer_add_loop
          (updSlot st.pTimerList (PUTIMER_HND_GET_IDX hnd)
            { st.pTimerList (PUTIMER_HND_GET_IDX hnd) with
              tsEnd := timespec_add_ms tsNow0
                (st.pTimerList (PUTIMER_HND_GET_IDX hnd)).uiPeriodMs })
          (timespec_add_ms tsNow0
            (st.pTimerList (PUTIMER_HND_GET_IDX hnd)).uiPeriodMs)
          (PUTIMER_HND_GET_IDX hnd) st.pQueue).2
        slots := updSlot
          (updSlot st.pTimerList (PUTIMER_HND_GET_IDX hnd)
            { st.pTimerList (PUTIMER_HND_GET_IDX hnd) with
              tsEnd := timespec_add_ms tsNow0
                (st.pTimerList (PUTIMER_HND_GET_IDX hnd)).uiPeriodMs })
          (PUTIMER_HND_GET_IDX hnd)
          { st.pTimerList (PUTIMER_HND_GET_IDX hnd) with
            tsEnd := timespec_add_ms tsNow0
              (st.pTimerList (PUTIMER_HND_GET_IDX hnd)).uiPeriodMs
            enState := PUTIMER_STATE_WAITING }
        queue := (putimer_add_loop
          (updSlot st.pTimerList (PUTIMER_HND_GET_IDX hnd)
            { st.pTimerList (PUTIMER_HND_GET_IDX hnd) with
              tsEnd := timespec_add_ms tsNow0
                (st.pTimerList (PUTIMER_HND_GET_IDX hnd)).uiPeriodMs })
          (timespec_add_ms tsNow0
            (st.pTimerList (PUTIMER_HND_GET_IDX hnd)).uiPeriodMs)
          (PUTIMER_HND_GET_IDX hnd) st.pQueue).1 } := by
    unfold putimer_add
    rw [if_pos hidle]
    simp only []
    rw [if_neg (by rw [habs]; exact Bool.false_ne_true)]
  have hstart : putimer_start st hnd tsNow0 =
      (0, { st with
        pTimerList := (putimer_add st.pTimerList st.pQueue
          (PUTIMER_HND_GET_IDX hnd) tsNow0).slots
        pQueue := (putimer_add st.pTimerList st.pQueue
          (PUTIMER_HND_GET_IDX hnd) tsNow0).queue }) := by
    unfold putimer_start
    rw [if_pos hidx, if_pos htag]
  -- the slot after start
  have hslot1 : (putimer_add st.pTimerList st.pQueue
      (PUTIMER_HND_GET_IDX hnd) tsNow0).slots (PUTIMER_HND_GET_IDX hnd) =
      { st.pTimerList (PUTIMER_HND_GET_IDX hnd) with
        tsEnd := timespec_add_ms tsNow0
          (st.pTimerList (PUTIMER_HND_GET_IDX hnd)).uiPeriodMs
        enState := PUTIMER_STATE_WAITING } := by
    rw [hares]
    simp [updSlot]
  -- the queue after start: the new entry is present, surrounded by old ones
  have hloop := putimer_add_loop_eq
    (updSlot st.pTimerList (PUTIMER_HND_GET_IDX hnd)
      { st.pTimerList (PUTIMER_HND_GET_IDX hnd) with
        tsEnd := timespec_add_ms tsNow0
          (st.pTimerList (PUTIMER_HND_GET_IDX hnd)).uiPeriodMs })
    (timespec_add_ms tsNow0
      (st.pTimerList (PUTIMER_HND_GET_IDX hnd)).uiPeriodMs)
    (PUTIMER_HND_GET_IDX hnd) st.pQueue
  have hq1 : (putimer_add st.pTimerList st.pQueue
      (PUTIMER_HND_GET_IDX hnd) tsNow0).queue =
      (putimer_add_loop
        (updSlot st.pTimerList (PUTIMER_HND_GET_IDX hnd)
          { st.pTimerList (PUTIMER_HND_GET_IDX hnd) with
            tsEnd := timespec_add_ms tsNow0
              (st.pTimerList (PUTIMER_HND_GET_IDX hnd)).uiPeriodMs })
        (timespec_add_ms tsNow0
          (st.pTimerList (PUTIMER_HND_GET_IDX hnd)).uiPeriodMs)
        (PUTIMER_HND_GET_IDX hnd) st.pQueue).1 := by
    rw [hares]
  have hmem1 : PUTIMER_HND_GET_IDX hnd ∈
      (putimer_add st.pTimerList st.pQueue
        (PUTIMER_HND_GET_IDX hnd) tsNow0).queue := by
    rw [hq1, hloop]
    simp
  have hnotin' : PUTIMER_HND_GET_IDX hnd ∉
      ((putimer_add st.pTimerList st.pQueue
        (PUTIMER_HND_GET_IDX hnd) tsNow0).queue).erase
        (PUTIMER_HND_GET_IDX hnd) := by
    rw [hq1, hloop]
    simp only []
    have htke : PUTIMER_HND_GET_IDX hnd ∉
        st.pQueue.takeWhile (fun j => !timespec_is_a_after_b
          ((updSlot st.pTimerList (PUTIMER_HND_GET_IDX hnd)
            { st.pTimerList (PUTIMER_HND_GET_IDX hnd) with
              tsEnd := timespec_add_ms tsNow0
                (st.pTimerList (PUTIMER_HND_GET_IDX hnd)).uiPeriodMs }) j).tsEnd
          (timespec_add_ms tsNow0
            (st.pTimerList (PUTIMER_HND_GET_IDX hnd)).uiPeriodMs)) := by
      intro hmem
      exact hnotin (List.Sublist.mem hmem (List.takeWhile_sublist _))
    have hdke : PUTIMER_HND_GET_IDX hnd ∉
        st.pQueue.dropWhile (fun j => !timespec_is_a_after_b
          ((updSlot st.pTimerList (PUTIMER_HND_GET_IDX hnd)
            { st.pTimerList (PUTIMER_HND_GET_IDX hnd) with
              tsEnd := timespec_add_ms tsNow0
                (st.pTimerList (PUTIMER_HND_GET_IDX hnd)).uiPeriodMs }) j).tsEnd
          (timespec_add_ms tsNow0
            (st.pTimerList (PUTIMER_HND_GET_IDX hnd)).uiPeriodMs)) := by
      intro hmem
      exact hnotin (List.Sublist.mem hmem (List.dropWhile_sublist _))
    rw [List.erase_append_right _ htke, List.erase_cons_head]
    simp only [List.mem_append]
    push_neg
    exact ⟨htke, hdke⟩
  -- step 2: the stop call
  have htag1 : PUTIMER_HND_GET_TAG hnd =
      (((putimer_start st hnd tsNow0).2).pTimerList
        (PUTIMER_HND_GET_IDX hnd)).usTag := by
    rw [hstart]
    simp only []
    rw [hslot1]
    exact htag
  have hw1 : (((putimer_start st hnd tsNow0).2).pTimerList
      (PUTIMER_HND_GET_IDX hnd)).enState = PUTIMER_STATE_WAITING := by
    rw [hstart]
    simp only []
    rw [hslot1]
  have hfind := putimer_remove_find_of_mem _ _
    (show PUTIMER_HND_GET_IDX hnd ∈ ((putimer_start st hnd tsNow0).2).pQueue by
      rw [hstart]; exact hmem1)
  have hrres : putimer_remove ((putimer_start st hnd tsNow0).2).pTimerList
      ((putimer_start st hnd tsNow0).2).pQueue (PUTIMER_HND_GET_IDX hnd)
      tsNow1 =
      { iHeadUpdated := decide
          ((((putimer_start st hnd tsNow0).2).pQueue).head? =
            some (PUTIMER_HND_GET_IDX hnd))
        iWasActive := true
        uiRemainingMs := putimer_remaining_ms
          ((((putimer_start st hnd tsNow0).2).pTimerList
            (PUTIMER_HND_GET_IDX hnd)).tsEnd) tsNow1
        slots := updSlot ((putimer_start st hnd tsNow0).2).pTimerList
          (PUTIMER_HND_GET_IDX hnd)
          { ((putimer_start st hnd tsNow0).2).pTimerList
              (PUTIMER_HND_GET_IDX hnd) with enState := PUTIMER_STATE_IDLE }
        queue := (((putimer_start st hnd tsNow0).2).pQueue).erase
          (PUTIMER_HND_GET_IDX hnd) } := by
    unfold putimer_remove
    simp only []
    rw [hfind]
    simp [hw1]
  have hstop : putimer_stop (putimer_start st hnd tsNow0).2 hnd tsNow1 =
      (0,
       (putimer_remove ((putimer_start st hnd tsNow0).2).pTimerList
         ((putimer_start st hnd tsNow0).2).pQueue (PUTIMER_HND_GET_IDX hnd)
         tsNow1).uiRemainingMs,
       { (putimer_start st hnd tsNow0).2 with
         pTimerList := (putimer_remove
           ((putimer_start st hnd tsNow0).2).pTimerList
           ((putimer_start st hnd tsNow0).2).pQueue
           (PUTIMER_HND_GET_IDX hnd) tsNow1).slots
         pQueue := (putimer_remove ((putimer_start st hnd tsNow0).2).pTimerList
           ((putimer_start st hnd tsNow0).2).pQueue
           (PUTIMER_HND_GET_IDX hnd) tsNow1).queue }) := by
    unfold putimer_stop
    rw [if_pos hidx, if_pos htag1]
  -- the end time written by start
  have hend1 : (((putimer_start st hnd tsNow0).2).pTimerList
      (PUTIMER_HND_GET_IDX hnd)).tsEnd =
      timespec_add_ms tsNow0
        (st.pTimerList (PUTIMER_HND_GET_IDX hnd)).uiPeriodMs := by
    rw [hstart]
    simp only []
    rw [hslot1]
  -- remaining-time arithmetic
  have hbnds := timespec_add_ms_nsec_bounds tsNow0
    (st.pTimerList (PUTIMER_HND_GET_IDX hnd)).uiPeriodMs ⟨hn00, hn01⟩
  have hmsval : ((putimer_remaining_ms
      (timespec_add_ms tsNow0
        (st.pTimerList (PUTIMER_HND_GET_IDX hnd)).uiPeriodMs) tsNow1 : Nat)
      : Int) =
      max 0 (toNs (timespec_add_ms tsNow0
        (st.pTimerList (PUTIMER_HND_GET_IDX hnd)).uiPeriodMs) - toNs tsNow1)
      / 1000000 :=
    putimer_remaining_ms_eq _ _ hbnds.1 hbnds.2 ⟨hn10, hn11⟩
  have hDpos : 0 < toNs (timespec_add_ms tsNow0
      (st.pTimerList (PUTIMER_HND_GET_IDX hnd)).uiPeriodMs) - toNs tsNow1 := by
    have := (isAfter_iff_toNs _ tsNow1 hbnds.1 hbnds.2 ⟨hn10, hn11⟩).mp hbefore
    omega
  have hDle : toNs (timespec_add_ms tsNow0
      (st.pTimerList (PUTIMER_HND_GET_IDX hnd)).uiPeriodMs) - toNs tsNow1 ≤
      ((st.pTimerList (PUTIMER_HND_GET_IDX hnd)).uiPeriodMs : Int) * 1000000 := by
    have hval := timespec_add_ms_toNs tsNow0
      (st.pTimerList (PUTIMER_HND_GET_IDX hnd)).uiPeriodMs
    have h01 : toNs tsNow0 ≤ toNs tsNow1 := by
      rw [isAfter_false_iff_lex] at hmono
      unfold toNs
      omega
    omega
  have hmax : max 0 (toNs (timespec_add_ms tsNow0
      (st.pTimerList (PUTIMER_HND_GET_IDX hnd)).uiPeriodMs) - toNs tsNow1) =
      toNs (timespec_add_ms tsNow0
        (st.pTimerList (PUTIMER_HND_GET_IDX hnd)).uiPeriodMs) - toNs tsNow1 := by
    omega
  have hmsle : putimer_remaining_ms
      (timespec_add_ms tsNow0
        (st.pTimerList (PUTIMER_HND_GET_IDX hnd)).uiPeriodMs) tsNow1 ≤
      (st.pTimerList (PUTIMER_HND_GET_IDX hnd)).uiPeriodMs := by
    have hdivle : (toNs (timespec_add_ms tsNow0
        (st.pTimerList (PUTIMER_HND_GET_IDX hnd)).uiPeriodMs) - toNs tsNow1)
        / 1000000 ≤
        ((st.pTimerList (PUTIMER_HND_GET_IDX hnd)).uiPeriodMs : Int) := by
      have h1 := Int.ediv_le_ediv (by norm_num : (0:Int) < 1000000) hDle
      rwa [Int.mul_ediv_cancel _ (by norm_num : (1000000:Int) ≠ 0)] at h1
    rw [hmax] at hmsval
    omega
  have hmspos : 1000000 ≤ toNs (timespec_add_ms tsNow0
      (st.pTimerList (PUTIMER_HND_GET_IDX hnd)).uiPeriodMs) - toNs tsNow1 →
      0 < putimer_remaining_ms
        (timespec_add_ms tsNow0
          (st.pTimerList (PUTIMER_HND_GET_IDX hnd)).uiPeriodMs) tsNow1 := by
    intro hge
    have h1 := Int.ediv_le_ediv (by norm_num : (0:Int) < 1000000) hge
    rw [Int.ediv_self (by norm_num : (1000000:Int) ≠ 0)] at h1
    rw [hmax] at hmsval
    omega
  -- assemble
  rw [hstop]
  rw [hrres]
  simp only []
  rw [hend1]
  refine ⟨trivial, hmsle, hmspos, by simp [updSlot], ?_,
    by simp [updSlot, putimer_fire_check]⟩
  rw [hstart]
  simp only []
  exact hnotin'

/-- Witness for C9 (amended): a 10 ms timer created in the fresh pool,
started at 0 and stopped 5 ms later reports at most 10 ms remaining, a
positive remainder, and a dead dispatch guard. -/
theorem start_stop_before_expiration_witness :
    (PUTIMER_HND_GET_IDX 1 < PUTIMER_MAX_RESOURCES ∧
      PUTIMER_HND_GET_TAG 1 =
        (((putimer_create_local putimer_init_state PUTIMER_TYPE_SINGLESHOT
          1 10 0 false).2).pTimerList (PUTIMER_HND_GET_IDX 1)).usTag ∧
      timespec_is_a_after_b
        (timespec_add_ms { tv_sec := 0, tv_nsec := 0 }
          (((putimer_create_local putimer_init_state PUTIMER_TYPE_SINGLESHOT
            1 10 0 false).2).pTimerList
            (PUTIMER_HND_GET_IDX 1)).uiPeriodMs)
        { tv_sec := 0, tv_nsec := 5000000 } = true) ∧
    (putimer_stop (putimer_start (putimer_create_local putimer_init_state
        PUTIMER_TYPE_SINGLESHOT 1 10 0 false).2 1
        { tv_sec := 0, tv_nsec := 0 }).2 1
      { tv_sec := 0, tv_nsec := 5000000 }).1 = 0 ∧
    (putimer_stop (putimer_start (putimer_create_local putimer_init_state
        PUTIMER_TYPE_SINGLESHOT 1 10 0 false).2 1
        { tv_sec := 0, tv_nsec := 0 }).2 1
      { tv_sec := 0, tv_nsec := 5000000 }).2.1 ≤
      (((putimer_create_local putimer_init_state PUTIMER_TYPE_SINGLESHOT
        1 10 0 false).2).pTimerList (PUTIMER_HND_GET_IDX 1)).uiPeriodMs ∧
    putimer_fire_check
      ((putimer_stop (putimer_start (putimer_create_local putimer_init_state
          PUTIMER_TYPE_SINGLESHOT 1 10 0 false).2 1
          { tv_sec := 0, tv_nsec := 0 }).2 1
        { tv_sec := 0, tv_nsec := 5000000 }).2.2.pTimerList
        (PUTIMER_HND_GET_IDX 1)) = false :=
  ⟨⟨by decide, by decide, by decide⟩,
   (start_stop_before_expiration (putimer_create_local putimer_init_state
      PUTIMER_TYPE_SINGLESHOT 1 10 0 false).2 1 { tv_sec := 0, tv_nsec := 0 }
      { tv_sec := 0, tv_nsec := 5000000 } (by decide) (by decide) (by decide)
      (by decide) (by decide) (by decide) (by decide) (by decide)
      (by decide)).1,
   (start_stop_before_expiration (putimer_create_local putimer_init_state
      PUTIMER_TYPE_SINGLESHOT 1 10 0 false).2 1 { tv_sec := 0, tv_nsec := 0 }
      { tv_sec := 0, tv_nsec := 5000000 } (by decide) (by decide) (by decide)
      (by decide) (by decide) (by decide) (by decide) (by decide)
      (by decide)).2.1,
   (start_stop_before_expiration (putimer_create_local putimer_init_state
      PUTIMER_TYPE_SINGLESHOT 1 10 0 false).2 1 { tv_sec := 0, tv_nsec := 0 }
      { tv_sec := 0, tv_nsec := 5000000 } (by decide) (by decide) (by decide)
      (by decide) (by decide) (by decide) (by decide) (by decide)
      (by decide)).2.2.2.2.2⟩

/-- Counterexample to C9 as stated: a 10 ms timer started at 0 and stopped at
9999999 ns — strictly before its 10^7 ns expiration — reports
`remaining_ms = 0`, not a strictly positive value, because the source floors
the sub-millisecond remainder. -/
theorem stop_remaining_zero_counterexample :
    timespec_is_a_after_b
      (((putimer_start (putimer_create_local putimer_init_state
          PUTIMER_TYPE_SINGLESHOT 1 10 0 false).2 1
          { tv_sec := 0, tv_nsec := 0 }).2.pTimerList 0).tsEnd)
      { tv_sec := 0, tv_nsec := 9999999 } = true ∧
    (putimer_stop (putimer_start (putimer_create_local putimer_init_state
        PUTIMER_TYPE_SINGLESHOT 1 10 0 false).2 1
        { tv_sec := 0, tv_nsec := 0 }).2 1
      { tv_sec := 0, tv_nsec := 9999999 }).1 = 0 ∧
    (putimer_stop (putimer_start (putimer_create_local putimer_init_state
        PUTIMER_TYPE_SINGLESHOT 1 10 0 false).2 1
        { tv_sec := 0, tv_nsec := 0 }).2 1
      { tv_sec := 0, tv_nsec := 9999999 }).2.1 = 0 := by
  refine ⟨by decide, by decide, by decide⟩

theorem putimer_inv_init : PutimerInv putimer_init_state := by
  refine ⟨?_, ?_, ?_⟩
  · unfold allocCount
    decide
  · intro i _
    constructor
    · intro h
      cases h
    · intro h
      exact absurd rfl h
  · intro i _ h
    exact absurd rfl h

theorem putimer_apply_create_inv (st : PutimerSt) (ty : PutimerType)
    (fct per ck : Nat) (lk : Bool) (hinv : PutimerInv st) :
    PutimerInv (putimer_create_local st ty fct per ck lk).2 := by
  obtain ⟨hcnt, hbit, hid⟩ := hinv
  by_cases hguard : (st.iIsInit ∧ fct ≠ 0 ∧
      (ty = PUTIMER_TYPE_SINGLESHOT ∨ ty = PUTIMER_TYPE_PERIODIC))
  · by_cases hlt : st.uiAllocatedTimers < PUTIMER_MAX_RESOURCES
    · have hex : ∃ i ∈ List.range PUTIMER_MAX_RESOURCES,
          (!(st.pTimerId i)) = true := by
        by_contra hall
        push_neg at hall
        have hall' : ∀ i ∈ List.range PUTIMER_MAX_RESOURCES,
            (fun i => decide ((st.pTimerList i).usTag ≠ 0)) i = true := by
          intro i hi
          have hi' := List.mem_range.mp hi
          have hbiti : st.pTimerId i = true := by
            have hh := hall i hi
            revert hh
            cases st.pTimerId i <;> simp
          simpa using (hbit i hi').mp hbiti
        have hfull : tagCount st.pTimerList = PUTIMER_MAX_RESOURCES := by
          unfold tagCount
          rw [List.countP_eq_length.mpr hall', List.length_range]
        have hcnt' : st.uiAllocatedTimers = tagCount st.pTimerList := hcnt
        omega
      have hsome : (putimer_alloc_id st.pTimerId).isSome := by
        unfold putimer_alloc_id
        rw [List.find?_isSome]
        exact hex
      obtain ⟨j, hj⟩ := Option.isSome_iff_exists.mp hsome
      have hjlt : j < PUTIMER_MAX_RESOURCES :=
        List.mem_range.mp (List.mem_of_find?_eq_some hj)
      have hjfree : st.pTimerId j = false := by
        have := List.find?_some hj
        simpa using this
      have hjtag : (st.pTimerList j).usTag = 0 := by
        by_contra htag
        have := (hbit j hjlt).mpr htag
        rw [hjfree] at this
        cases this
      set pNew : PutimerTmr :=
        { usID := j, usTag := putimer_next_tag st.usRollingTag
          enType := ty, pFct := fct, pCookie := ck
          uiPeriodMs := (if per < PUTIMER_MIN_TIMEOUT then
            PUTIMER_MIN_TIMEOUT else per)
          tsEnd := (st.pTimerList j).tsEnd
          enState := PUTIMER_STATE_IDLE, iUseAbsTime := false
          bLockable := lk } with hpNew
      have hres : (putimer_create_local st ty fct per ck lk).2 =
          { st with
            pTimerId := fun k => if k = j then true else st.pTimerId k
            usRollingTag := putimer_next_tag st.usRollingTag
            pTimerList := updSlot st.pTimerList j pNew
            uiAllocatedTimers := st.uiAllocatedTimers + 1 } := by
        unfold putimer_create_local
        rw [if_pos hguard, if_pos hlt, hj, hpNew]
      rw [hres]
      have htagnz := (putimer_next_tag_bounds st.usRollingTag).1
      have hNewTag : pNew.usTag ≠ 0 := by
        rw [hpNew]
        exact htagnz
      refine ⟨?_, ?_, ?_⟩
      · show st.uiAllocatedTimers + 1 = tagCount (updSlot st.pTimerList j pNew)
        have hstep : tagCount (updSlot st.pTimerList j pNew) =
            tagCount st.pTimerList + 1 := by
          unfold tagCount
          apply countP_update_true _ _ _ j (List.mem_range.mpr hjlt)
            (List.nodup_range _)
          · intro k hk
            simp [updSlot, hk]
          · simp [hjtag]
          · simp [updSlot, hNewTag]
        have hcnt' : st.uiAllocatedTimers = tagCount st.pTimerList := hcnt
        omega
      · intro i hi
        by_cases hij : i = j
        · subst hij
          simp [updSlot, hNewTag]
        · have h1 := hbit i hi
          simp only [updSlot, if_neg hij]
          exact h1
      · intro i hi
        by_cases hij : i = j
        · subst hij
          intro _
          simp [updSlot, hpNew]
        · intro htg
          have htg' : (st.pTimerList i).usTag ≠ 0 := by
            simpa [updSlot, hij] using htg
          have := hid i hi htg'
          simpa [updSlot, hij] using this
    · have hres : (putimer_create_local st ty fct per ck lk).2 = st := by
        unfold putimer_create_local
        rw [if_pos hguard, if_neg hlt]
      rw [hres]
      exact ⟨hcnt, hbit, hid⟩
  · have hres : (putimer_create_local st ty fct per ck lk).2 = st := by
      unfold putimer_create_local
      rw [if_neg hguard]
    rw [hres]
    exact ⟨hcnt, hbit, hid⟩

theorem putimer_apply_delete_inv (st : PutimerSt) (hnd : Nat)
    (tsNow : Timespec) (hinv : PutimerInv st)
    (hop : PUTIMER_HND_GET_TAG hnd ≠ 0) :
    PutimerInv (putimer_delete st hnd tsNow).2 := by
  obtain ⟨hcnt, hbit, hid⟩ := hinv
  by_cases hidx : PUTIMER_HND_GET_IDX hnd < PUTIMER_MAX_RESOURCES
  · by_cases htag : PUTIMER_HND_GET_TAG hnd =
        (st.pTimerList (PUTIMER_HND_GET_IDX hnd)).usTag
    · have htagnz : (st.pTimerList (PUTIMER_HND_GET_IDX hnd)).usTag ≠ 0 :=
        htag ▸ hop
      have hcntpos : 0 < allocCount st := by
        unfold allocCount tagCount
        rw [List.countP_pos_iff]
        exact ⟨PUTIMER_HND_GET_IDX hnd, List.mem_range.mpr hidx,
          by simpa using htagnz⟩
      have hne : st.uiAllocatedTimers ≠ 0 := by omega
      have husid : (st.pTimerList (PUTIMER_HND_GET_IDX hnd)).usID =
          PUTIMER_HND_GET_IDX hnd := hid _ hidx htagnz
      set rr := putimer_remove st.pTimerList st.pQueue
        (PUTIMER_HND_GET_IDX hnd) tsNow with hrr
      have hremid : (rr.slots (PUTIMER_HND_GET_IDX hnd)).usID =
          PUTIMER_HND_GET_IDX hnd := by
        rw [hrr, putimer_remove_usIDs]
        exact husid
      have hres : (putimer_delete st hnd tsNow).2 =
          { st with
            pTimerId := putimer_free_id st.pTimerId
              ((rr.slots (PUTIMER_HND_GET_IDX hnd)).usID)
            pTimerList := updSlot rr.slots (PUTIMER_HND_GET_IDX hnd)
              { rr.slots (PUTIMER_HND_GET_IDX hnd) with usTag := 0 }
            pQueue := rr.queue
            uiAllocatedTimers := st.uiAllocatedTimers - 1 } := by
        unfold putimer_delete
        rw [if_pos hidx, if_pos htag, if_pos hne, hrr]
      rw [hres]
      have hcnt' : st.uiAllocatedTimers = tagCount st.pTimerList := hcnt
      have hcntpos' : 0 < tagCount st.pTimerList := hcntpos
      refine ⟨?_, ?_, ?_⟩
      · show st.uiAllocatedTimers - 1 =
          tagCount (updSlot rr.slots (PUTIMER_HND_GET_IDX hnd)
            { rr.slots (PUTIMER_HND_GET_IDX hnd) with usTag := 0 })
        have hstep : tagCount st.pTimerList =
            tagCount (updSlot rr.slots (PUTIMER_HND_GET_IDX hnd)
              { rr.slots (PUTIMER_HND_GET_IDX hnd) with usTag := 0 }) + 1 := by
          unfold tagCount
          apply countP_update_true _ _ _ (PUTIMER_HND_GET_IDX hnd)
            (List.mem_range.mpr hidx) (List.nodup_range _)
          · intro k hk
            simp only [updSlot, if_neg hk]
            rw [hrr, putimer_remove_tags]
          · simp [updSlot]
          · simpa using htagnz
        omega
      · intro i hi
        by_cases hij : i = PUTIMER_HND_GET_IDX hnd
        · subst hij
          constructor
          · intro h
            unfold putimer_free_id at h
            rw [hremid] at h
            simp at h
          · intro h
            exact absurd (by simp [updSlot]) h
        · have h1 := hbit i hi
          unfold putimer_free_id
          rw [hremid]
          simp only [updSlot, if_neg hij]
          rw [hrr, putimer_remove_tags]
          exact h1
      · intro i hi
        by_cases hij : i = PUTIMER_HND_GET_IDX hnd
        · subst hij
          intro htg
          exact absurd (by simp [updSlot]) htg
        · intro htg
          have hoff : rr.slots i = st.pTimerList i := by
            rw [hrr]
            exact putimer_remove_slots_off _ _ _ _ _ hij
          have htg' : (st.pTimerList i).usTag ≠ 0 := by
            simpa [updSlot, hij, hoff] using htg
          have husid2 := hid i hi htg'
          simp only [updSlot, if_neg hij]
          rw [hoff]
          exact husid2
    · have hres : (putimer_delete st hnd tsNow).2 = st := by
        unfold putimer_delete
        rw [if_pos hidx, if_neg htag]
      rw [hres]
      exact ⟨hcnt, hbit, hid⟩
  · have hres : (putimer_delete st hnd tsNow).2 = st := by
      unfold putimer_delete
      rw [if_neg hidx]
    rw [hres]
    exact ⟨hcnt, hbit, hid⟩

theorem putimer_run_inv (ops : List PutimerOp) (st : PutimerSt)
    (hinv : PutimerInv st) (hops : ∀ op ∈ ops, goodOp op) :
    PutimerInv (putimer_run st ops) := by
  induction ops generalizing st with
  | nil => exact hinv
  | cons op rest ih =>
    unfold putimer_run at ih ⊢
    rw [List.foldl_cons]
    apply ih
    · cases op with
      | create ty fct per ck lk => exact putimer_apply_create_inv st ty fct per ck lk hinv
      | del hnd tsNow =>
        exact putimer_apply_delete_inv st hnd tsNow hinv
          (hops _ (List.mem_cons_self _ _))
    · intro o ho
      exact hops o (List.mem_cons_of_mem _ ho)

/-- Counterexample to C8 as stated: starting from the initialized module,
`create` (slot 0, tag 1) followed by `delete` of the forged handle
`5 << 16` (index 5, tag 0) passes the tag check against the free slot 5,
and `putimer_free_id(pTmr->usID)` reads slot 5's zeroed `usID` field (0),
clearing bit 0 of the bitmap while slot 0 is still allocated: the bitmap no
longer mirrors the tags. -/
theorem bitmap_mirror_counterexample :
    (putimer_run putimer_init_state
      [PutimerOp.create PUTIMER_TYPE_SINGLESHOT 1 10 0 false,
       PutimerOp.del 327680 { tv_sec := 0, tv_nsec := 0 }]).pTimerId 0 =
      false ∧
    ((putimer_run putimer_init_state
      [PutimerOp.create PUTIMER_TYPE_SINGLESHOT 1 10 0 false,
       PutimerOp.del 327680 { tv_sec := 0, tv_nsec := 0 }]).pTimerList 0).usTag
      ≠ 0 :=
  ⟨by decide, by decide⟩

/-- C8 (amended): after initialization and any sequence of create and delete
calls in which every delete handle decodes to a non-zero tag, the allocation
count stays at most the capacity (128) and the id bitmap has bit `i` set
exactly when slot `i`'s tag is non-zero. -/
theorem capacity_bitmap_invariant (ops : List PutimerOp)
    (hops : ∀ op ∈ ops, goodOp op) :
    (putimer_run putimer_init_state ops).uiAllocatedTimers ≤
      PUTIMER_MAX_RESOURCES ∧
    (∀ i < PUTIMER_MAX_RESOURCES,
      ((putimer_run putimer_init_state ops).pTimerId i = true ↔
        ((putimer_run putimer_init_state ops).pTimerList i).usTag ≠ 0)) := by
  obtain ⟨hcnt, hbit, _⟩ := putimer_run_inv ops putimer_init_state
    putimer_inv_init hops
  refine ⟨?_, hbit⟩
  have hle : allocCount (putimer_run putimer_init_state ops) ≤
      (List.range PUTIMER_MAX_RESOURCES).length := List.countP_le_length _
  rw [List.length_range] at hle
  omega

/-- Witness for C8 (amended): a create followed by a delete of the returned
handle (tag 1 ≠ 0). -/
theorem capacity_bitmap_invariant_witness :
    (∀ op ∈ [PutimerOp.create PUTIMER_TYPE_SINGLESHOT 1 10 0 false,
        PutimerOp.del 1 { tv_sec := 0, tv_nsec := 0 }], goodOp op) ∧
    (putimer_run putimer_init_state
      [PutimerOp.create PUTIMER_TYPE_SINGLESHOT 1 10 0 false,
       PutimerOp.del 1 { tv_sec := 0, tv_nsec := 0 }]).uiAllocatedTimers ≤
      PUTIMER_MAX_RESOURCES ∧
    ((putimer_run putimer_init_state
        [PutimerOp.create PUTIMER_TYPE_SINGLESHOT 1 10 0 false,
         PutimerOp.del 1 { tv_sec := 0, tv_nsec := 0 }]).pTimerId 0 = true ↔
      ((putimer_run putimer_init_state
        [PutimerOp.create PUTIMER_TYPE_SINGLESHOT 1 10 0 false,
         PutimerOp.del 1 { tv_sec := 0, tv_nsec := 0 }]).pTimerList 0).usTag
        ≠ 0) := by
  have hops : ∀ op ∈ [PutimerOp.create PUTIMER_TYPE_SINGLESHOT 1 10 0 false,
      PutimerOp.del 1 { tv_sec := 0, tv_nsec := 0 }], goodOp op := by
    intro op hop
    rcases List.mem_cons.mp hop with rfl | hop2
    · exact trivial
    · rcases List.mem_cons.mp hop2 with rfl | hop3
      · show PUTIMER_HND_GET_TAG 1 ≠ 0
        decide
      · cases hop3
  exact ⟨hops, (capacity_bitmap_invariant _ hops).1,
    (capacity_bitmap_invariant _ hops).2 0 (by decide)⟩

end Putimer
